import Mathlib

/-!
Verification of the ReFi-Leverage repository: the `x/leverage` CLI query
surface (from `src/x/leverage/client/cli/query.go`) and the money-market
engine that the specification describes behind it.

Part 1 embeds the CLI layer: each `GetCmdQuery*` constructor becomes a
`CobraCommand` whose `runE` mirrors the Go `RunE` closure, with the gRPC
query service abstracted as a function from (query kind, request) to a
response.

Part 2 models the lending engine (interest-rate model, exchange-rate
accrual, position ledger, liquidation) from the specification, since the
engine's own source is not part of the visible repository.
-/

namespace Leverage

/-! ## Part 1: the CLI query layer -/

/-- The query endpoints of the `types.QueryClient` used by the CLI. -/
inductive QueryKind
  | registeredTokens
  | params
  | borrowed
  | borrowedValue
  | supplied
  | suppliedValue
  | reserveAmount
  | collateral
  | collateralValue
  | exchangeRate
  | availableBorrow
  | supplyAPY
  | borrowAPY
  | marketSize
  | tokenMarketSize
  | borrowLimit
  | liquidationThreshold
  | liquidationTargets
  | marketSummary
  | totalCollateral
  | totalBorrowed
  deriving DecidableEq, Repr

/-- A request message: every request type used by `query.go` carries at
most an `Address` and a `Denom` string field, both empty by default. -/
structure QueryRequest where
  Address : String := ""
  Denom : String := ""
  deriving DecidableEq, Repr

/-- Errors a CLI command can return: context construction failure, a flag
read failure, or an error from the remote query service. -/
inductive CliError
  | ctxFailed
  | flagFailed
  | queryFailed (msg : String)
  deriving DecidableEq, Repr

/-- The ambient effects a `RunE` closure consumes: the client query
context (which `client.GetClientQueryContext` may fail to build), the
result of `cmd.Flags().GetString(FlagDenom)` (a string and an optional
error), and the remote query service. The service's successful answer is
the proto response, which `clientCtx.PrintProto` prints verbatim; we
represent it as the printed string. -/
structure CliEnv where
  clientCtx : Except CliError Unit
  flagDenom : String × Option CliError
  service : QueryKind → QueryRequest → Except CliError String

/-- A Cobra command as built by the `GetCmdQuery*` functions: its `Use`
line, its positional-argument count (`cobra.ExactArgs n` / `cobra.NoArgs`),
and its `RunE` body. -/
structure CobraCommand where
  use : String
  nargs : Nat
  runE : CliEnv → List String → Except CliError String

/-- The subcommand name is the first word of the `Use` line. -/
def CobraCommand.name (c : CobraCommand) : String :=
  String.mk (c.use.data.takeWhile (fun ch => ch ≠ ' '))

/-- Command `GetCmdQueryAllRegisteredTokens` from query.go. -/
def GetCmdQueryAllRegisteredTokens : CobraCommand where
  use := "registered-tokens"
  nargs := 0
  runE := fun env _args => do
    let _ ← env.clientCtx
    env.service .registeredTokens {}

/-- Command `GetCmdQueryParams` from query.go. -/
def GetCmdQueryParams : CobraCommand where
  use := "params"
  nargs := 0
  runE := fun env _args => do
    let _ ← env.clientCtx
    env.service .params {}

/-- Command `GetCmdQueryBorrowed` from query.go: address argument, optional
`--denom` flag copied into the request only when non-empty and read
without error. -/
def GetCmdQueryBorrowed : CobraCommand where
  use := "borrowed [addr]"
  nargs := 1
  runE := fun env args => do
    let _ ← env.clientCtx
    let req : QueryRequest := { Address := args.headD "" }
    let req := match env.flagDenom with
      | (d, e) => if 0 < d.length ∧ e = none then { req with Denom := d } else req
    env.service .borrowed req

/-- Command `GetCmdQueryBorrowedValue` from query.go. -/
def GetCmdQueryBorrowedValue : CobraCommand where
  use := "borrowed-value [addr]"
  nargs := 1
  runE := fun env args => do
    let _ ← env.clientCtx
    let req : QueryRequest := { Address := args.headD "" }
    let req := match env.flagDenom with
      | (d, e) => if 0 < d.length ∧ e = none then { req with Denom := d } else req
    env.service .borrowedValue req

/-- Command `GetCmdQuerySupplied` from query.go. -/
def GetCmdQuerySupplied : CobraCommand where
  use := "supplied [addr]"
  nargs := 1
  runE := fun env args => do
    let _ ← env.clientCtx
    let req : QueryRequest := { Address := args.headD "" }
    let req := match env.flagDenom with
      | (d, e) => if 0 < d.length ∧ e = none then { req with Denom := d } else req
    env.service .supplied req

/-- Command `GetCmdQuerySuppliedValue` from query.go. -/
def GetCmdQuerySuppliedValue : CobraCommand where
  use := "supplied-value [addr]"
  nargs := 1
  runE := fun env args => do
    let _ ← env.clientCtx
    let req : QueryRequest := { Address := args.headD "" }
    let req := match env.flagDenom with
      | (d, e) => if 0 < d.length ∧ e = none then { req with Denom := d } else req
    env.service .suppliedValue req

/-- Command `GetCmdQueryReserveAmount` from query.go: positional denom argument. -/
def GetCmdQueryReserveAmount : CobraCommand where
  use := "reserved [denom]"
  nargs := 1
  runE := fun env args => do
    let _ ← env.clientCtx
    env.service .reserveAmount { Denom := args.headD "" }

/-- Command `GetCmdQueryCollateral` from query.go. -/
def GetCmdQueryCollateral : CobraCommand where
  use := "collateral [addr]"
  nargs := 1
  runE := fun env args => do
    let _ ← env.clientCtx
    let req : QueryRequest := { Address := args.headD "" }
    let req := match env.flagDenom with
      | (d, e) => if 0 < d.length ∧ e = none then { req with Denom := d } else req
    env.service .collateral req

/-- Command `GetCmdQueryCollateralValue` from query.go. -/
def GetCmdQueryCollateralValue : CobraCommand where
  use := "collateral-value [addr]"
  nargs := 1
  runE := fun env args => do
    let _ ← env.clientCtx
    let req : QueryRequest := { Address := args.headD "" }
    let req := match env.flagDenom with
      | (d, e) => if 0 < d.length ∧ e = none then { req with Denom := d } else req
    env.service .collateralValue req

/-- Command `GetCmdQueryExchangeRate` from query.go. -/
def GetCmdQueryExchangeRate : CobraCommand where
  use := "exchange-rate [denom]"
  nargs := 1
  runE := fun env args => do
    let _ ← env.clientCtx
    env.service .exchangeRate { Denom := args.headD "" }

/-- Command `GetCmdQueryAvailableBorrow` from query.go: built but never added to
the command tree by `GetQueryCmd`. -/
def GetCmdQueryAvailableBorrow : CobraCommand where
  use := "available-borrow [denom]"
  nargs := 1
  runE := fun env args => do
    let _ ← env.clientCtx
    env.service .availableBorrow { Denom := args.headD "" }

/-- Command `GetCmdQuerySupplyAPY` from query.go. -/
def GetCmdQuerySupplyAPY : CobraCommand where
  use := "supply-apy [denom]"
  nargs := 1
  runE := fun env args => do
    let _ ← env.clientCtx
    env.service .supplyAPY { Denom := args.headD "" }

/-- Command `GetCmdQueryBorrowAPY` from query.go. -/
def GetCmdQueryBorrowAPY : CobraCommand where
  use := "borrow-apy [denom]"
  nargs := 1
  runE := fun env args => do
    let _ ← env.clientCtx
    env.service .borrowAPY { Denom := args.headD "" }

/-- Command `GetCmdQueryMarketSize` from query.go. -/
def GetCmdQueryMarketSize : CobraCommand where
  use := "market-size [denom]"
  nargs := 1
  runE := fun env args => do
    let _ ← env.clientCtx
    env.service .marketSize { Denom := args.headD "" }

/-- Command `GetCmdQueryTokenMarketSize` from query.go. -/
def GetCmdQueryTokenMarketSize : CobraCommand where
  use := "token-market-size [denom]"
  nargs := 1
  runE := fun env args => do
    let _ ← env.clientCtx
    env.service .tokenMarketSize { Denom := args.headD "" }

/-- Command `GetCmdQueryBorrowLimit` from query.go: address argument, no denom
flag. -/
def GetCmdQueryBorrowLimit : CobraCommand where
  use := "borrow-limit [addr]"
  nargs := 1
  runE := fun env args => do
    let _ ← env.clientCtx
    env.service .borrowLimit { Address := args.headD "" }

/-- Command `GetCmdQueryLiquidationThreshold` from query.go. -/
def GetCmdQueryLiquidationThreshold : CobraCommand where
  use := "liquidation-threshold [addr]"
  nargs := 1
  runE := fun env args => do
    let _ ← env.clientCtx
    env.service .liquidationThreshold { Address := args.headD "" }

/-- Command `GetCmdQueryLiquidationTargets` from query.go. -/
def GetCmdQueryLiquidationTargets : CobraCommand where
  use := "liquidation-targets"
  nargs := 0
  runE := fun env _args => do
    let _ ← env.clientCtx
    env.service .liquidationTargets {}

/-- Command `GetCmdQueryMarketSummary` from query.go. -/
def GetCmdQueryMarketSummary : CobraCommand where
  use := "market-summary [denom]"
  nargs := 1
  runE := fun env args => do
    let _ ← env.clientCtx
    env.service .marketSummary { Denom := args.headD "" }

/-- Command `GetCmdQueryTotalCollateral` from query.go. -/
def GetCmdQueryTotalCollateral : CobraCommand where
  use := "total-collateral [denom]"
  nargs := 1
  runE := fun env args => do
    let _ ← env.clientCtx
    env.service .totalCollateral { Denom := args.headD "" }

/-- Command `GetCmdQueryTotalBorrowed` from query.go. -/
def GetCmdQueryTotalBorrowed : CobraCommand where
  use := "total-borrowed [denom]"
  nargs := 1
  runE := fun env args => do
    let _ ← env.clientCtx
    env.service .totalBorrowed { Denom := args.headD "" }

/-- The root query command: `Use` is `types.ModuleName` and it carries
the subcommand list registered by `GetQueryCmd`'s `cmd.AddCommand` call,
in source order. -/
structure RootCommand where
  use : String
  subcommands : List CobraCommand

/-- Function `GetQueryCmd` from query.go. The `queryRoute` parameter is accepted
and unused, as in the source. -/
def GetQueryCmd (_queryRoute : String) : RootCommand where
  use := "leverage"
  subcommands :=
    [ GetCmdQueryAllRegisteredTokens
    , GetCmdQueryParams
    , GetCmdQueryBorrowed
    , GetCmdQueryBorrowedValue
    , GetCmdQuerySupplied
    , GetCmdQuerySuppliedValue
    , GetCmdQueryReserveAmount
    , GetCmdQueryCollateral
    , GetCmdQueryCollateralValue
    , GetCmdQueryExchangeRate
    , GetCmdQuerySupplyAPY
    , GetCmdQueryBorrowAPY
    , GetCmdQueryMarketSize
    , GetCmdQueryTokenMarketSize
    , GetCmdQueryBorrowLimit
    , GetCmdQueryLiquidationThreshold
    , GetCmdQueryLiquidationTargets
    , GetCmdQueryMarketSummary
    , GetCmdQueryTotalCollateral
    , GetCmdQueryTotalBorrowed ]

/-- The denom string the address-plus-flag commands place into the
request: the flag's value when it is non-empty and was read without
error, the empty string otherwise. -/
def denomFromFlag (env : CliEnv) : String :=
  match env.flagDenom with
  | (d, e) => if 0 < d.length ∧ e = none then d else ""


/-! ### Forwarding lemmas for the address-plus-flag commands -/

lemma runE_borrowed (env : CliEnv) (a : String) (h : env.clientCtx = Except.ok ()) :
    GetCmdQueryBorrowed.runE env [a] =
      env.service .borrowed { Address := a, Denom := denomFromFlag env } := by
  simp only [GetCmdQueryBorrowed, denomFromFlag]
  rw [h]
  obtain ⟨d, e⟩ := env.flagDenom
  simp only [bind, Except.bind, List.headD]
  split <;> rfl

lemma runE_borrowedValue (env : CliEnv) (a : String) (h : env.clientCtx = Except.ok ()) :
    GetCmdQueryBorrowedValue.runE env [a] =
      env.service .borrowedValue { Address := a, Denom := denomFromFlag env } := by
  simp only [GetCmdQueryBorrowedValue, denomFromFlag]
  rw [h]
  obtain ⟨d, e⟩ := env.flagDenom
  simp only [bind, Except.bind, List.headD]
  split <;> rfl

lemma runE_supplied (env : CliEnv) (a : String) (h : env.clientCtx = Except.ok ()) :
    GetCmdQuerySupplied.runE env [a] =
      env.service .supplied { Address := a, Denom := denomFromFlag env } := by
  simp only [GetCmdQuerySupplied, denomFromFlag]
  rw [h]
  obtain ⟨d, e⟩ := env.flagDenom
  simp only [bind, Except.bind, List.headD]
  split <;> rfl

lemma runE_suppliedValue (env : CliEnv) (a : String) (h : env.clientCtx = Except.ok ()) :
    GetCmdQuerySuppliedValue.runE env [a] =
      env.service .suppliedValue { Address := a, Denom := denomFromFlag env } := by
  simp only [GetCmdQuerySuppliedValue, denomFromFlag]
  rw [h]
  obtain ⟨d, e⟩ := env.flagDenom
  simp only [bind, Except.bind, List.headD]
  split <;> rfl

lemma runE_collateral (env : CliEnv) (a : String) (h : env.clientCtx = Except.ok ()) :
    GetCmdQueryCollateral.runE env [a] =
      env.service .collateral { Address := a, Denom := denomFromFlag env } := by
  simp only [GetCmdQueryCollateral, denomFromFlag]
  rw [h]
  obtain ⟨d, e⟩ := env.flagDenom
  simp only [bind, Except.bind, List.headD]
  split <;> rfl

lemma runE_collateralValue (env : CliEnv) (a : String) (h : env.clientCtx = Except.ok ()) :
    GetCmdQueryCollateralValue.runE env [a] =
      env.service .collateralValue { Address := a, Denom := denomFromFlag env } := by
  simp only [GetCmdQueryCollateralValue, denomFromFlag]
  rw [h]
  obtain ⟨d, e⟩ := env.flagDenom
  simp only [bind, Except.bind, List.headD]
  split <;> rfl

/-! ### Forwarding lemmas for the single-positional-argument commands -/

lemma runE_reserveAmount (env : CliEnv) (a : String) (h : env.clientCtx = Except.ok ()) :
    GetCmdQueryReserveAmount.runE env [a] = env.service .reserveAmount { Denom := a } := by
  simp only [GetCmdQueryReserveAmount]; rw [h]; rfl

lemma runE_exchangeRate (env : CliEnv) (a : String) (h : env.clientCtx = Except.ok ()) :
    GetCmdQueryExchangeRate.runE env [a] = env.service .exchangeRate { Denom := a } := by
  simp only [GetCmdQueryExchangeRate]; rw [h]; rfl

lemma runE_supplyAPY (env : CliEnv) (a : String) (h : env.clientCtx = Except.ok ()) :
    GetCmdQuerySupplyAPY.runE env [a] = env.service .supplyAPY { Denom := a } := by
  simp only [GetCmdQuerySupplyAPY]; rw [h]; rfl

lemma runE_borrowAPY (env : CliEnv) (a : String) (h : env.clientCtx = Except.ok ()) :
    GetCmdQueryBorrowAPY.runE env [a] = env.service .borrowAPY { Denom := a } := by
  simp only [GetCmdQueryBorrowAPY]; rw [h]; rfl

lemma runE_marketSize (env : CliEnv) (a : String) (h : env.clientCtx = Except.ok ()) :
    GetCmdQueryMarketSize.runE env [a] = env.service .marketSize { Denom := a } := by
  simp only [GetCmdQueryMarketSize]; rw [h]; rfl

lemma runE_tokenMarketSize (env : CliEnv) (a : String) (h : env.clientCtx = Except.ok ()) :
    GetCmdQueryTokenMarketSize.runE env [a] = env.service .tokenMarketSize { Denom := a } := by
  simp only [GetCmdQueryTokenMarketSize]; rw [h]; rfl

lemma runE_borrowLimit (env : CliEnv) (a : String) (h : env.clientCtx = Except.ok ()) :
    GetCmdQueryBorrowLimit.runE env [a] = env.service .borrowLimit { Address := a } := by
  simp only [GetCmdQueryBorrowLimit]; rw [h]; rfl

lemma runE_liquidationThreshold (env : CliEnv) (a : String) (h : env.clientCtx = Except.ok ()) :
    GetCmdQueryLiquidationThreshold.runE env [a] =
      env.service .liquidationThreshold { Address := a } := by
  simp only [GetCmdQueryLiquidationThreshold]; rw [h]; rfl

lemma runE_marketSummary (env : CliEnv) (a : String) (h : env.clientCtx = Except.ok ()) :
    GetCmdQueryMarketSummary.runE env [a] = env.service .marketSummary { Denom := a } := by
  simp only [GetCmdQueryMarketSummary]; rw [h]; rfl

lemma runE_totalCollateral (env : CliEnv) (a : String) (h : env.clientCtx = Except.ok ()) :
    GetCmdQueryTotalCollateral.runE env [a] = env.service .totalCollateral { Denom := a } := by
  simp only [GetCmdQueryTotalCollateral]; rw [h]; rfl

lemma runE_totalBorrowed (env : CliEnv) (a : String) (h : env.clientCtx = Except.ok ()) :
    GetCmdQueryTotalBorrowed.runE env [a] = env.service .totalBorrowed { Denom := a } := by
  simp only [GetCmdQueryTotalBorrowed]; rw [h]; rfl

/-! ### Claim theorems for the CLI layer -/

/-- C1: For every query subcommand taking a positional argument (borrowed,
borrowed-value, supplied, supplied-value, reserved, collateral,
collateral-value, exchange-rate, supply-apy, borrow-apy, market-size,
token-market-size, borrow-limit, liquidation-threshold, market-summary,
total-collateral, total-borrowed) and every argument string, the request
message sent to the query service carries that string unchanged in its
`Address` or `Denom` field, the command performs no computation on it, and
the command's output is exactly the response returned by the service
(successes and failures alike are forwarded verbatim, since the run result
IS the service call's result). -/
theorem query_commands_forward_argument_unchanged (env : CliEnv) (a : String)
    (h : env.clientCtx = Except.ok ()) :
    GetCmdQueryBorrowed.runE env [a] =
      env.service .borrowed { Address := a, Denom := denomFromFlag env } ∧
    GetCmdQueryBorrowedValue.runE env [a] =
      env.service .borrowedValue { Address := a, Denom := denomFromFlag env } ∧
    GetCmdQuerySupplied.runE env [a] =
      env.service .supplied { Address := a, Denom := denomFromFlag env } ∧
    GetCmdQuerySuppliedValue.runE env [a] =
      env.service .suppliedValue { Address := a, Denom := denomFromFlag env } ∧
    GetCmdQueryReserveAmount.runE env [a] = env.service .reserveAmount { Denom := a } ∧
    GetCmdQueryCollateral.runE env [a] =
      env.service .collateral { Address := a, Denom := denomFromFlag env } ∧
    GetCmdQueryCollateralValue.runE env [a] =
      env.service .collateralValue { Address := a, Denom := denomFromFlag env } ∧
    GetCmdQueryExchangeRate.runE env [a] = env.service .exchangeRate { Denom := a } ∧
    GetCmdQuerySupplyAPY.runE env [a] = env.service .supplyAPY { Denom := a } ∧
    GetCmdQueryBorrowAPY.runE env [a] = env.service .borrowAPY { Denom := a } ∧
    GetCmdQueryMarketSize.runE env [a] = env.service .marketSize { Denom := a } ∧
    GetCmdQueryTokenMarketSize.runE env [a] = env.service .tokenMarketSize { Denom := a } ∧
    GetCmdQueryBorrowLimit.runE env [a] = env.service .borrowLimit { Address := a } ∧
    GetCmdQueryLiquidationThreshold.runE env [a] =
      env.service .liquidationThreshold { Address := a } ∧
    GetCmdQueryMarketSummary.runE env [a] = env.service .marketSummary { Denom := a } ∧
    GetCmdQueryTotalCollateral.runE env [a] = env.service .totalCollateral { Denom := a } ∧
    GetCmdQueryTotalBorrowed.runE env [a] = env.service .totalBorrowed { Denom := a } :=
  ⟨runE_borrowed env a h, runE_borrowedValue env a h, runE_supplied env a h,
   runE_suppliedValue env a h, runE_reserveAmount env a h, runE_collateral env a h,
   runE_collateralValue env a h, runE_exchangeRate env a h, runE_supplyAPY env a h,
   runE_borrowAPY env a h, runE_marketSize env a h, runE_tokenMarketSize env a h,
   runE_borrowLimit env a h, runE_liquidationThreshold env a h, runE_marketSummary env a h,
   runE_totalCollateral env a h, runE_totalBorrowed env a h⟩

/-- A concrete CLI environment for witnesses: context construction
succeeds, the denom flag reads "uumee" without error, and the service
answers "resp" to every query. -/
def cliEnvW : CliEnv where
  clientCtx := Except.ok ()
  flagDenom := ("uumee", none)
  service := fun _ _ => Except.ok "resp"

/-- Witness for C1 at a concrete environment and address. -/
theorem query_commands_forward_argument_unchanged_witness :
    cliEnvW.clientCtx = Except.ok () ∧
    (GetCmdQueryBorrowed.runE cliEnvW ["umee1x"] =
      cliEnvW.service .borrowed { Address := "umee1x", Denom := denomFromFlag cliEnvW } ∧
    GetCmdQueryBorrowedValue.runE cliEnvW ["umee1x"] =
      cliEnvW.service .borrowedValue { Address := "umee1x", Denom := denomFromFlag cliEnvW } ∧
    GetCmdQuerySupplied.runE cliEnvW ["umee1x"] =
      cliEnvW.service .supplied { Address := "umee1x", Denom := denomFromFlag cliEnvW } ∧
    GetCmdQuerySuppliedValue.runE cliEnvW ["umee1x"] =
      cliEnvW.service .suppliedValue { Address := "umee1x", Denom := denomFromFlag cliEnvW } ∧
    GetCmdQueryReserveAmount.runE cliEnvW ["umee1x"] =
      cliEnvW.service .reserveAmount { Denom := "umee1x" } ∧
    GetCmdQueryCollateral.runE cliEnvW ["umee1x"] =
      cliEnvW.service .collateral { Address := "umee1x", Denom := denomFromFlag cliEnvW } ∧
    GetCmdQueryCollateralValue.runE cliEnvW ["umee1x"] =
      cliEnvW.service .collateralValue { Address := "umee1x", Denom := denomFromFlag cliEnvW } ∧
    GetCmdQueryExchangeRate.runE cliEnvW ["umee1x"] =
      cliEnvW.service .exchangeRate { Denom := "umee1x" } ∧
    GetCmdQuerySupplyAPY.runE cliEnvW ["umee1x"] =
      cliEnvW.service .supplyAPY { Denom := "umee1x" } ∧
    GetCmdQueryBorrowAPY.runE cliEnvW ["umee1x"] =
      cliEnvW.service .borrowAPY { Denom := "umee1x" } ∧
    GetCmdQueryMarketSize.runE cliEnvW ["umee1x"] =
      cliEnvW.service .marketSize { Denom := "umee1x" } ∧
    GetCmdQueryTokenMarketSize.runE cliEnvW ["umee1x"] =
      cliEnvW.service .tokenMarketSize { Denom := "umee1x" } ∧
    GetCmdQueryBorrowLimit.runE cliEnvW ["umee1x"] =
      cliEnvW.service .borrowLimit { Address := "umee1x" } ∧
    GetCmdQueryLiquidationThreshold.runE cliEnvW ["umee1x"] =
      cliEnvW.service .liquidationThreshold { Address := "umee1x" } ∧
    GetCmdQueryMarketSummary.runE cliEnvW ["umee1x"] =
      cliEnvW.service .marketSummary { Denom := "umee1x" } ∧
    GetCmdQueryTotalCollateral.runE cliEnvW ["umee1x"] =
      cliEnvW.service .totalCollateral { Denom := "umee1x" } ∧
    GetCmdQueryTotalBorrowed.runE cliEnvW ["umee1x"] =
      cliEnvW.service .totalBorrowed { Denom := "umee1x" }) :=
  ⟨rfl, query_commands_forward_argument_unchanged cliEnvW "umee1x" rfl⟩

/-- Helper: the names of the subcommands `GetQueryCmd` registers, in
source order. -/
lemma getQueryCmd_subcommand_names (route : String) :
    ((GetQueryCmd route).subcommands.map CobraCommand.name) =
      ["registered-tokens", "params", "borrowed", "borrowed-value", "supplied",
       "supplied-value", "reserved", "collateral", "collateral-value", "exchange-rate",
       "supply-apy", "borrow-apy", "market-size", "token-market-size", "borrow-limit",
       "liquidation-threshold", "liquidation-targets", "market-summary",
       "total-collateral", "total-borrowed"] := by
  have h : ((GetQueryCmd "").subcommands.map CobraCommand.name) =
      ["registered-tokens", "params", "borrowed", "borrowed-value", "supplied",
       "supplied-value", "reserved", "collateral", "collateral-value", "exchange-rate",
       "supply-apy", "borrow-apy", "market-size", "token-market-size", "borrow-limit",
       "liquidation-threshold", "liquidation-targets", "market-summary",
       "total-collateral", "total-borrowed"] := by decide
  exact h

/-- C2: `GetQueryCmd` registers exactly the twenty query subcommands
registered-tokens, params, borrowed, borrowed-value, supplied,
supplied-value, reserved, collateral, collateral-value, exchange-rate,
supply-apy, borrow-apy, market-size, token-market-size, borrow-limit,
liquidation-threshold, liquidation-targets, market-summary,
total-collateral and total-borrowed, in that order, for every query
route. -/
theorem getQueryCmd_registers_twenty_subcommands (route : String) :
    ((GetQueryCmd route).subcommands.map CobraCommand.name) =
      ["registered-tokens", "params", "borrowed", "borrowed-value", "supplied",
       "supplied-value", "reserved", "collateral", "collateral-value", "exchange-rate",
       "supply-apy", "borrow-apy", "market-size", "token-market-size", "borrow-limit",
       "liquidation-threshold", "liquidation-targets", "market-summary",
       "total-collateral", "total-borrowed"] ∧
    (GetQueryCmd route).subcommands.length = 20 :=
  ⟨getQueryCmd_subcommand_names route, rfl⟩

/-- C9: for the borrowed, borrowed-value, supplied, supplied-value,
collateral and collateral-value subcommands, when the `--denom` flag read
returns an error, the error is silently discarded: the request's `Denom`
stays empty (querying all denominations) and the command still forwards
the query instead of failing. -/
theorem denom_flag_error_silently_discarded (env : CliEnv) (a dv : String) (err : CliError)
    (h : env.clientCtx = Except.ok ()) (hf : env.flagDenom = (dv, some err)) :
    denomFromFlag env = "" ∧
    GetCmdQueryBorrowed.runE env [a] = env.service .borrowed { Address := a, Denom := "" } ∧
    GetCmdQueryBorrowedValue.runE env [a] =
      env.service .borrowedValue { Address := a, Denom := "" } ∧
    GetCmdQuerySupplied.runE env [a] = env.service .supplied { Address := a, Denom := "" } ∧
    GetCmdQuerySuppliedValue.runE env [a] =
      env.service .suppliedValue { Address := a, Denom := "" } ∧
    GetCmdQueryCollateral.runE env [a] =
      env.service .collateral { Address := a, Denom := "" } ∧
    GetCmdQueryCollateralValue.runE env [a] =
      env.service .collateralValue { Address := a, Denom := "" } := by
  have hd : denomFromFlag env = "" := by
    simp [denomFromFlag, hf]
  refine ⟨hd, ?_, ?_, ?_, ?_, ?_, ?_⟩
  · rw [runE_borrowed env a h, hd]
  · rw [runE_borrowedValue env a h, hd]
  · rw [runE_supplied env a h, hd]
  · rw [runE_suppliedValue env a h, hd]
  · rw [runE_collateral env a h, hd]
  · rw [runE_collateralValue env a h, hd]

/-- A concrete CLI environment whose denom-flag read fails. -/
def cliEnvFlagErr : CliEnv where
  clientCtx := Except.ok ()
  flagDenom := ("uumee", some CliError.flagFailed)
  service := fun _ _ => Except.ok "resp"

/-- Witness for C9 at a concrete environment with a failing flag read. -/
theorem denom_flag_error_silently_discarded_witness :
    cliEnvFlagErr.clientCtx = Except.ok () ∧
    cliEnvFlagErr.flagDenom = ("uumee", some CliError.flagFailed) ∧
    (denomFromFlag cliEnvFlagErr = "" ∧
    GetCmdQueryBorrowed.runE cliEnvFlagErr ["umee1y"] =
      cliEnvFlagErr.service .borrowed { Address := "umee1y", Denom := "" } ∧
    GetCmdQueryBorrowedValue.runE cliEnvFlagErr ["umee1y"] =
      cliEnvFlagErr.service .borrowedValue { Address := "umee1y", Denom := "" } ∧
    GetCmdQuerySupplied.runE cliEnvFlagErr ["umee1y"] =
      cliEnvFlagErr.service .supplied { Address := "umee1y", Denom := "" } ∧
    GetCmdQuerySuppliedValue.runE cliEnvFlagErr ["umee1y"] =
      cliEnvFlagErr.service .suppliedValue { Address := "umee1y", Denom := "" } ∧
    GetCmdQueryCollateral.runE cliEnvFlagErr ["umee1y"] =
      cliEnvFlagErr.service .collateral { Address := "umee1y", Denom := "" } ∧
    GetCmdQueryCollateralValue.runE cliEnvFlagErr ["umee1y"] =
      cliEnvFlagErr.service .collateralValue { Address := "umee1y", Denom := "" }) :=
  ⟨rfl, rfl,
   denom_flag_error_silently_discarded cliEnvFlagErr "umee1y" "uumee" CliError.flagFailed
     rfl rfl⟩

/-- C10: `GetCmdQueryAvailableBorrow` builds an available-borrow
subcommand, but `GetQueryCmd` never registers it, so the available-borrow
query is unreachable from the module's query command tree for every query
route. -/
theorem available_borrow_never_registered (route : String) :
    GetCmdQueryAvailableBorrow.name = "available-borrow" ∧
    "available-borrow" ∉ ((GetQueryCmd route).subcommands.map CobraCommand.name) := by
  refine ⟨by decide, ?_⟩
  rw [getQueryCmd_subcommand_names route]
  decide


/-! ## Part 2: the lending engine, modelled from the specification

The engine itself (TokenRegistry, InterestRateModel, ExchangeRateEngine,
PositionLedger, BorrowLimitCalculator, LiquidationEngine) is not part of
the visible repository; every definition below is modelled from the
specification's words. Fixed-precision decimal arithmetic is represented
by the rationals. -/

/-- Modelled from the spec: `TokenDenomParams` (section 3), the per
denomination risk parameters held by the missing TokenRegistry: collateral
weight, liquidation threshold, reserve factor, interest-curve parameters
(base rate, kink, slope below/above the kink), supply/borrow enable flags
and the liquidation incentive bonus. -/
structure TokenDenomParams where
  collateralWeight : ℚ
  liquidationThreshold : ℚ
  reserveFactor : ℚ
  baseRate : ℚ
  kink : ℚ
  slopeLow : ℚ
  slopeHigh : ℚ
  supplyEnabled : Bool
  borrowEnabled : Bool
  liquidationIncentive : ℚ
  deriving DecidableEq, Repr

/-- Modelled from the spec: the parameter invariants of section 3
(`0 ≤ collateral weight ≤ liquidation threshold ≤ 1`, fractions in `[0,1]`,
non-negative curve parameters and incentive). -/
structure ValidParams (p : TokenDenomParams) : Prop where
  cw_nonneg : 0 ≤ p.collateralWeight
  cw_le_liq : p.collateralWeight ≤ p.liquidationThreshold
  liq_le_one : p.liquidationThreshold ≤ 1
  rf_nonneg : 0 ≤ p.reserveFactor
  rf_le_one : p.reserveFactor ≤ 1
  base_nonneg : 0 ≤ p.baseRate
  kink_nonneg : 0 ≤ p.kink
  kink_le_one : p.kink ≤ 1
  slopeLow_nonneg : 0 ≤ p.slopeLow
  slopeHigh_nonneg : 0 ≤ p.slopeHigh
  incentive_nonneg : 0 ≤ p.liquidationIncentive

/-- Modelled from the spec: `MarketState` (section 3), one per
denomination: the uToken supply, total borrowed, total reserved, the
uToken exchange rate and the borrow accrual index (the index snapshot
mechanism of `Position`). Total supplied in base-token equivalent is
`uTokenSupply * exchangeRate`. -/
structure MarketState where
  uTokenSupply : ℚ
  totalBorrowed : ℚ
  totalReserved : ℚ
  exchangeRate : ℚ
  borrowIndex : ℚ
  deriving DecidableEq, Repr

/-- Modelled from the spec: total supplied, in base-token equivalent. -/
def MarketState.totalSupplied (m : MarketState) : ℚ :=
  m.uTokenSupply * m.exchangeRate

/-- Modelled from the spec (section 4.2): utilization
`u = totalBorrowed / totalSupplied`, `0` when `totalSupplied` is `0`,
clamped to `[0,1]`. -/
def utilization (m : MarketState) : ℚ :=
  if m.totalSupplied = 0 then 0
  else min 1 (max 0 (m.totalBorrowed / m.totalSupplied))

/-- Modelled from the spec (section 4.2): the borrow rate is
piecewise-linear in utilization: `base + slopeLow*min(u,kink)` below the
kink, plus `slopeHigh*(u-kink)` above it. -/
def borrowRate (p : TokenDenomParams) (u : ℚ) : ℚ :=
  p.baseRate + p.slopeLow * min u p.kink + p.slopeHigh * max 0 (u - p.kink)

/-- Modelled from the spec (section 4.2): supply rate
`= borrowRate * u * (1 - reserveFactor)`. -/
def supplyRate (p : TokenDenomParams) (u : ℚ) : ℚ :=
  borrowRate p u * u * (1 - p.reserveFactor)

/-- Modelled from the spec (section 4.2): the InterestRateModel contract
`rates(marketState, params) -> (borrowAPY, supplyAPY)`. -/
def rates (m : MarketState) (p : TokenDenomParams) : ℚ × ℚ :=
  (borrowRate p (utilization m), supplyRate p (utilization m))

/-- Modelled from the spec (section 4.3): the ExchangeRateEngine contract
`accrue(marketState, params, elapsed)`. Interest accrued over `elapsed`
at the current borrow rate increases `totalBorrowed`; a `reserveFactor`
share is credited to `totalReserved`; the remainder raises the exchange
rate, `newRate = (totalSupplied + nonReserveInterest) / totalUTokenSupply`;
the borrow index compounds by `(1 + rate*elapsed)` so that each
position's owed balance grows with the market. -/
def accrueMarket (p : TokenDenomParams) (elapsed : ℚ) (m : MarketState) : MarketState :=
  let r := borrowRate p (utilization m)
  let interest := m.totalBorrowed * r * elapsed
  let reserveShare := p.reserveFactor * interest
  let nonReserve := interest - reserveShare
  { uTokenSupply := m.uTokenSupply
    totalBorrowed := m.totalBorrowed + interest
    totalReserved := m.totalReserved + reserveShare
    exchangeRate :=
      if m.uTokenSupply = 0 then m.exchangeRate
      else (m.uTokenSupply * m.exchangeRate + nonReserve) / m.uTokenSupply
    borrowIndex := m.borrowIndex * (1 + r * elapsed) }

/-- Modelled from the spec: `Position` (section 3), one per (account,
denomination): supplied uTokens, collateral-designated uTokens (a subset
of supplied), the borrowed base-token amount and the accrual index
snapshot taken when the position was last touched. -/
structure Position where
  supplied : ℚ
  collateral : ℚ
  borrowedAmount : ℚ
  indexSnapshot : ℚ
  deriving DecidableEq, Repr

/-- Modelled from the spec: the owed balance of a borrow position is its
recorded amount scaled by interest accrued since the snapshot. -/
def owed (pos : Position) (m : MarketState) : ℚ :=
  pos.borrowedAmount * m.borrowIndex / pos.indexSnapshot

/-- Modelled from the spec: the authoritative ledger state: a
`MarketState` per denomination and a `Position` per (account,
denomination). -/
structure LedgerState where
  market : String → MarketState
  pos : String → String → Position

/-- Replace one denomination's market state. -/
def setMarket (s : LedgerState) (d : String) (m : MarketState) : LedgerState :=
  { s with market := fun d2 => if d2 = d then m else s.market d2 }

/-- Replace one (account, denomination) position. -/
def setPos (s : LedgerState) (a d : String) (p : Position) : LedgerState :=
  { s with pos := fun a2 d2 => if a2 = a ∧ d2 = d then p else s.pos a2 d2 }

@[simp] lemma setMarket_market_same (s : LedgerState) (d : String) (m : MarketState) :
    (setMarket s d m).market d = m := by simp [setMarket]

lemma setMarket_market (s : LedgerState) (d d2 : String) (m : MarketState) :
    (setMarket s d m).market d2 = if d2 = d then m else s.market d2 := rfl

@[simp] lemma setMarket_pos (s : LedgerState) (d : String) (m : MarketState) :
    (setMarket s d m).pos = s.pos := rfl

@[simp] lemma setPos_market (s : LedgerState) (a d : String) (p : Position) :
    (setPos s a d p).market = s.market := rfl

@[simp] lemma setPos_pos_same (s : LedgerState) (a d : String) (p : Position) :
    (setPos s a d p).pos a d = p := by simp [setPos]

lemma setPos_pos (s : LedgerState) (a d : String) (p : Position) (a2 d2 : String) :
    (setPos s a d p).pos a2 d2 = if a2 = a ∧ d2 = d then p else s.pos a2 d2 := rfl

/-- Sum of a quantity over a list of accounts. -/
def sumOver (accounts : List String) (f : String → ℚ) : ℚ :=
  (accounts.map f).sum

lemma sumOver_congr {accounts : List String} {f g : String → ℚ}
    (h : ∀ a ∈ accounts, f a = g a) : sumOver accounts f = sumOver accounts g := by
  unfold sumOver
  rw [List.map_congr_left h]

lemma sumOver_nonneg {accounts : List String} {f : String → ℚ}
    (h : ∀ a ∈ accounts, 0 ≤ f a) : 0 ≤ sumOver accounts f := by
  unfold sumOver
  induction accounts with
  | nil => simp
  | cons b rest ih =>
    simp only [List.map_cons, List.sum_cons]
    have hb := h b (by simp)
    have hr := ih (fun a ha => h a (by simp [ha]))
    linarith

lemma sumOver_mul (accounts : List String) (f : String → ℚ) (c : ℚ) :
    sumOver accounts (fun a => f a * c) = sumOver accounts f * c := by
  unfold sumOver
  induction accounts with
  | nil => simp
  | cons b rest ih =>
    simp only [List.map_cons, List.sum_cons, ih]
    ring

lemma sumOver_update {accounts : List String} (hnd : accounts.Nodup)
    {a : String} (ha : a ∈ accounts) (f : String → ℚ) (v : ℚ) :
    sumOver accounts (fun x => if x = a then v else f x) =
      sumOver accounts f + v - f a := by
  unfold sumOver
  induction accounts with
  | nil => cases ha
  | cons b rest ih =>
    rcases List.mem_cons.mp ha with rfl | hrest
    · have hnotin : a ∉ rest := (List.nodup_cons.mp hnd).1
      simp only [List.map_cons, List.sum_cons, if_pos rfl]
      have hmap : (rest.map fun x => if x = a then v else f x) = rest.map f := by
        apply List.map_congr_left
        intro x hx
        have hxa : x ≠ a := fun h => hnotin (h ▸ hx)
        simp [hxa]
      rw [hmap]
      simp only [if_true]
      ring
    · have hba : b ≠ a := by
        intro h
        exact (List.nodup_cons.mp hnd).1 (h ▸ hrest)
      simp only [List.map_cons, List.sum_cons, if_neg hba]
      rw [ih (List.nodup_cons.mp hnd).2 hrest]
      ring


/-- Modelled from the spec: the typed failure taxonomy of section 7. -/
inductive LedgerError
  | notRegistered
  | denomDisabled
  | invalidAmount
  | insufficientBalance
  | borrowLimitExceeded
  | priceUnavailable
  | notEligible
  | insufficientCollateral
  deriving DecidableEq, Repr

/-- Modelled from the spec: the engine's external collaborators (section
6): the TokenRegistry (`registryParams(denom)`), the price oracle
(`oraclePrice(denom)`), the finite list of registered denominations the
BorrowLimitCalculator sums over, and the account universe the ledger's
totals range over. -/
structure Env where
  registry : String → Option TokenDenomParams
  price : String → Option ℚ
  denoms : List String
  accounts : List String

/-- Modelled from the spec: well-formedness of the collaborators:
registered parameters satisfy their invariants, oracle prices are
positive, and the account list has no duplicates. -/
structure EnvWF (env : Env) : Prop where
  validParams : ∀ d p, env.registry d = some p → ValidParams p
  pricePos : ∀ d q, env.price d = some q → 0 < q
  accountsNodup : env.accounts.Nodup

/-- Modelled from the spec (section 4.5): the collateral value of an
account summed over registered denominations, each contribution
`collateralUTokenAmount * exchangeRate * oraclePrice(denom)` scaled by a
per-denomination weight; `none` (PriceUnavailable / NotRegistered) when a
denomination actually held as collateral cannot be priced. -/
def weightedCollateralValue (env : Env) (s : LedgerState) (acct : String)
    (w : TokenDenomParams → ℚ) : Option ℚ :=
  env.denoms.foldr
    (fun d acc =>
      match acc with
      | none => none
      | some v =>
        let c := (s.pos acct d).collateral
        if c = 0 then some v
        else
          match env.registry d, env.price d with
          | some p, some pr => some (v + c * (s.market d).exchangeRate * pr * w p)
          | _, _ => none)
    (some 0)

/-- Modelled from the spec (section 4.5): the USD value of an account's
borrows summed over registered denominations; `none` when a denomination
actually borrowed cannot be priced. -/
def borrowedValueOf (env : Env) (s : LedgerState) (acct : String) : Option ℚ :=
  env.denoms.foldr
    (fun d acc =>
      match acc with
      | none => none
      | some v =>
        let wd := owed (s.pos acct d) (s.market d)
        if wd = 0 then some v
        else
          match env.price d with
          | some pr => some (v + wd * pr)
          | none => none)
    (some 0)

/-- Modelled from the spec (section 4.5): `limitValue(account)`, using
the collateral weight. -/
def limitValueOf (env : Env) (s : LedgerState) (acct : String) : Option ℚ :=
  weightedCollateralValue env s acct (fun p => p.collateralWeight)

/-- Modelled from the spec (section 4.5): `thresholdValue(account)`,
using the liquidation threshold. -/
def thresholdValueOf (env : Env) (s : LedgerState) (acct : String) : Option ℚ :=
  weightedCollateralValue env s acct (fun p => p.liquidationThreshold)

/-- Modelled from the spec (sections 4.4 and 4.5): the borrow-limit check
used by borrow, withdraw and decollateralize: borrowed value must not
exceed limit value (non-strict, a borrow equal to the limit succeeds);
an unpriceable required denomination is a hard `priceUnavailable`. -/
def checkBorrowLimit (env : Env) (s : LedgerState) (acct : String) :
    Except LedgerError Unit :=
  match borrowedValueOf env s acct, limitValueOf env s acct with
  | some bv, some lv => if bv ≤ lv then .ok () else .error .borrowLimitExceeded
  | _, _ => .error .priceUnavailable

/-- Modelled from the spec (section 4.4): the mutation entry points of
the PositionLedger, plus the standalone accrue of the
ExchangeRateEngine. Each call carries the elapsed time since the affected
market's last accrual, supplied by the monotonic clock collaborator. -/
inductive Op
  | supply (acct denom : String) (amount elapsed : ℚ)
  | withdraw (acct denom : String) (uAmount elapsed : ℚ)
  | collateralize (acct denom : String) (uAmount elapsed : ℚ)
  | decollateralize (acct denom : String) (uAmount elapsed : ℚ)
  | borrow (acct denom : String) (amount elapsed : ℚ)
  | repay (acct denom : String) (amount elapsed : ℚ)
  | liquidate (liq bor repayDenom seizeDenom : String) (amount elapsed : ℚ)
  | accrue (denom : String) (elapsed : ℚ)
  deriving DecidableEq, Repr

/-- Accrue one denomination's market in place. -/
def accrueDenom (p : TokenDenomParams) (e : ℚ) (s : LedgerState) (d : String) :
    LedgerState :=
  setMarket s d (accrueMarket p e (s.market d))

/-- Core mutation: change an account's supplied uToken balance and the
market's uToken supply by the same (possibly negative) amount. -/
def applySupplyChange (s : LedgerState) (acct denom : String) (du : ℚ) : LedgerState :=
  let pos := s.pos acct denom
  let s2 := setPos s acct denom { pos with supplied := pos.supplied + du }
  let m := s2.market denom
  setMarket s2 denom { m with uTokenSupply := m.uTokenSupply + du }

/-- Core mutation: move uTokens between the supplied-free and
collateral-designated pools of one position. -/
def applyCollatChange (s : LedgerState) (acct denom : String) (dc : ℚ) : LedgerState :=
  let pos := s.pos acct denom
  setPos s acct denom { pos with collateral := pos.collateral + dc }

/-- Core mutation: touch a borrow position, adding `amount` to its owed
balance, and add `amount` to the market's total borrowed. -/
def applyBorrow (s : LedgerState) (acct denom : String) (amount : ℚ) : LedgerState :=
  let m := s.market denom
  let pos := s.pos acct denom
  let w := owed pos m
  let s2 := setPos s acct denom
    { pos with borrowedAmount := w + amount, indexSnapshot := m.borrowIndex }
  setMarket s2 denom { m with totalBorrowed := m.totalBorrowed + amount }

/-- Core mutation: touch a borrow position, subtracting `applied` from
its owed balance, and subtract `applied` from the market's total
borrowed. -/
def applyRepay (s : LedgerState) (acct denom : String) (applied : ℚ) : LedgerState :=
  let m := s.market denom
  let pos := s.pos acct denom
  let w := owed pos m
  let s2 := setPos s acct denom
    { pos with borrowedAmount := w - applied, indexSnapshot := m.borrowIndex }
  setMarket s2 denom { m with totalBorrowed := m.totalBorrowed - applied }

/-- Core mutation: seize `x` collateral uTokens from the borrower and
credit them to the liquidator's supplied balance. -/
def applySeize (s : LedgerState) (bor liq denom : String) (x : ℚ) : LedgerState :=
  let pB := s.pos bor denom
  let s2 := setPos s bor denom
    { pB with supplied := pB.supplied - x, collateral := pB.collateral - x }
  let pL := s2.pos liq denom
  setPos s2 liq denom { pL with supplied := pL.supplied + x }

/-- Modelled from the spec (section 4.4, 4.6): one engine operation,
check-then-act: the accrual of the affected denominations and the
principal mutation commit together on success, and a typed failure
commits nothing. Returns the new state and the amount actually
applied. -/
def step (env : Env) (s : LedgerState) : Op → Except LedgerError (LedgerState × ℚ)
  | .supply acct denom amount elapsed =>
    match env.registry denom with
    | none => .error .notRegistered
    | some p =>
      if p.supplyEnabled = false then .error .denomDisabled
      else if amount ≤ 0 then .error .invalidAmount
      else
        let s1 := accrueDenom p elapsed s denom
        let uA := amount / (s1.market denom).exchangeRate
        .ok (applySupplyChange s1 acct denom uA, amount)
  | .withdraw acct denom uAmount elapsed =>
    match env.registry denom with
    | none => .error .notRegistered
    | some p =>
      if uAmount ≤ 0 then .error .invalidAmount
      else
        let s1 := accrueDenom p elapsed s denom
        let pos := s1.pos acct denom
        if pos.supplied - pos.collateral < uAmount then .error .insufficientBalance
        else
          let s2 := applySupplyChange s1 acct denom (-uAmount)
          match checkBorrowLimit env s2 acct with
          | .error e => .error e
          | .ok _ => .ok (s2, uAmount)
  | .collateralize acct denom uAmount elapsed =>
    match env.registry denom with
    | none => .error .notRegistered
    | some p =>
      if uAmount ≤ 0 then .error .invalidAmount
      else
        let s1 := accrueDenom p elapsed s denom
        let pos := s1.pos acct denom
        if pos.supplied - pos.collateral < uAmount then .error .insufficientBalance
        else .ok (applyCollatChange s1 acct denom uAmount, uAmount)
  | .decollateralize acct denom uAmount elapsed =>
    match env.registry denom with
    | none => .error .notRegistered
    | some p =>
      if uAmount ≤ 0 then .error .invalidAmount
      else
        let s1 := accrueDenom p elapsed s denom
        let pos := s1.pos acct denom
        if pos.collateral < uAmount then .error .insufficientBalance
        else
          let s2 := applyCollatChange s1 acct denom (-uAmount)
          match checkBorrowLimit env s2 acct with
          | .error e => .error e
          | .ok _ => .ok (s2, uAmount)
  | .borrow acct denom amount elapsed =>
    match env.registry denom with
    | none => .error .notRegistered
    | some p =>
      if p.borrowEnabled = false then .error .denomDisabled
      else if amount ≤ 0 then .error .invalidAmount
      else
        let s1 := accrueDenom p elapsed s denom
        let s2 := applyBorrow s1 acct denom amount
        match checkBorrowLimit env s2 acct with
        | .error e => .error e
        | .ok _ => .ok (s2, amount)
  | .repay acct denom amount elapsed =>
    match env.registry denom with
    | none => .error .notRegistered
    | some p =>
      if amount ≤ 0 then .error .invalidAmount
      else
        let s1 := accrueDenom p elapsed s denom
        let w := owed (s1.pos acct denom) (s1.market denom)
        let applied := min amount w
        .ok (applyRepay s1 acct denom applied, applied)
  | .liquidate liq bor rDenom sDenom amount elapsed =>
    match env.registry rDenom, env.registry sDenom with
    | some pR, some pS =>
      if amount ≤ 0 then .error .invalidAmount
      else
        let s1 := accrueDenom pR elapsed s rDenom
        let s2 := if sDenom = rDenom then s1 else accrueDenom pS elapsed s1 sDenom
        match borrowedValueOf env s2 bor, thresholdValueOf env s2 bor with
        | some bv, some tv =>
          if bv ≤ tv then .error .notEligible
          else
            match env.price rDenom, env.price sDenom with
            | some prR, some prS =>
              let mS := s2.market sDenom
              let owedB := owed (s2.pos bor rDenom) (s2.market rDenom)
              let rep0 := min amount owedB
              let need := rep0 * prR * (1 + pS.liquidationIncentive) /
                (prS * mS.exchangeRate)
              let collat := (s2.pos bor sDenom).collateral
              let seizeU := if need ≤ collat then need else collat
              let rep := if need ≤ collat then rep0 else rep0 * (collat / need)
              let s3 := applyRepay s2 bor rDenom rep
              let s4 := applySeize s3 bor liq sDenom seizeU
              .ok (s4, rep)
            | _, _ => .error .priceUnavailable
        | _, _ => .error .priceUnavailable
    | _, _ => .error .notRegistered
  | .accrue denom elapsed =>
    match env.registry denom with
    | none => .error .notRegistered
    | some p => .ok (accrueDenom p elapsed s denom, 0)

/-- The state a caller observes after an operation: the new state on
success, the untouched input state on failure. -/
def exec (env : Env) (s : LedgerState) (op : Op) : LedgerState :=
  match step env s op with
  | .ok (s2, _) => s2
  | .error _ => s

/-- Run a sequence of operations, each observing the committed state of
the previous one. -/
def run (env : Env) (s : LedgerState) : List Op → LedgerState
  | [] => s
  | op :: ops => run env (exec env s op) ops

/-- Well-formedness of an operation call: the acting accounts are drawn
from the environment's account universe and the elapsed time reported by
the monotonic clock is non-negative. -/
def OpWF (env : Env) : Op → Prop
  | .supply a _ _ e => a ∈ env.accounts ∧ 0 ≤ e
  | .withdraw a _ _ e => a ∈ env.accounts ∧ 0 ≤ e
  | .collateralize a _ _ e => a ∈ env.accounts ∧ 0 ≤ e
  | .decollateralize a _ _ e => a ∈ env.accounts ∧ 0 ≤ e
  | .borrow a _ _ e => a ∈ env.accounts ∧ 0 ≤ e
  | .repay a _ _ e => a ∈ env.accounts ∧ 0 ≤ e
  | .liquidate l b _ _ _ e => l ∈ env.accounts ∧ b ∈ env.accounts ∧ 0 ≤ e
  | .accrue _ e => 0 ≤ e

/-- Modelled from the spec: the ledger's global invariant: positive
exchange rates and accrual indexes, well-formed positions (`0 ≤
collateral ≤ supplied`, non-negative owed principal, positive snapshot),
and market totals that are exactly the sums of the account positions. -/
structure Inv (env : Env) (s : LedgerState) : Prop where
  er_pos : ∀ d, 0 < (s.market d).exchangeRate
  idx_pos : ∀ d, 0 < (s.market d).borrowIndex
  collat_nonneg : ∀ a d, 0 ≤ (s.pos a d).collateral
  collat_le_supplied : ∀ a d, (s.pos a d).collateral ≤ (s.pos a d).supplied
  borrowed_nonneg : ∀ a d, 0 ≤ (s.pos a d).borrowedAmount
  snap_pos : ∀ a d, 0 < (s.pos a d).indexSnapshot
  borrow_sum : ∀ d,
    (s.market d).totalBorrowed = sumOver env.accounts (fun a => owed (s.pos a d) (s.market d))
  supply_sum : ∀ d,
    (s.market d).uTokenSupply = sumOver env.accounts (fun a => (s.pos a d).supplied)


/-! ### Basic facts about the rate model and accrual -/

lemma utilization_nonneg (m : MarketState) : 0 ≤ utilization m := by
  unfold utilization
  split
  · exact le_refl 0
  · exact le_min (by norm_num) (le_max_left 0 _)

lemma utilization_le_one (m : MarketState) : utilization m ≤ 1 := by
  unfold utilization
  split
  · norm_num
  · exact min_le_left 1 _

lemma borrowRate_nonneg {p : TokenDenomParams} (hp : ValidParams p) {u : ℚ}
    (hu : 0 ≤ u) : 0 ≤ borrowRate p u := by
  unfold borrowRate
  have h1 : 0 ≤ p.slopeLow * min u p.kink :=
    mul_nonneg hp.slopeLow_nonneg (le_min hu hp.kink_nonneg)
  have h2 : 0 ≤ p.slopeHigh * max 0 (u - p.kink) :=
    mul_nonneg hp.slopeHigh_nonneg (le_max_left 0 _)
  have h0 := hp.base_nonneg
  linarith

lemma owed_nonneg {pos : Position} {m : MarketState}
    (hb : 0 ≤ pos.borrowedAmount) (hi : 0 < m.borrowIndex)
    (hs : 0 < pos.indexSnapshot) : 0 ≤ owed pos m := by
  unfold owed
  exact div_nonneg (mul_nonneg hb hi.le) hs.le

lemma accrueMarket_uTokenSupply (p : TokenDenomParams) (e : ℚ) (m : MarketState) :
    (accrueMarket p e m).uTokenSupply = m.uTokenSupply := rfl

lemma accrueMarket_totalBorrowed (p : TokenDenomParams) (e : ℚ) (m : MarketState) :
    (accrueMarket p e m).totalBorrowed =
      m.totalBorrowed * (1 + borrowRate p (utilization m) * e) := by
  simp only [accrueMarket]
  ring

lemma accrueMarket_borrowIndex (p : TokenDenomParams) (e : ℚ) (m : MarketState) :
    (accrueMarket p e m).borrowIndex =
      m.borrowIndex * (1 + borrowRate p (utilization m) * e) := rfl

lemma one_add_rate_nonneg {p : TokenDenomParams} (hp : ValidParams p) {e : ℚ}
    (he : 0 ≤ e) (m : MarketState) :
    (1 : ℚ) ≤ 1 + borrowRate p (utilization m) * e := by
  have := mul_nonneg (borrowRate_nonneg hp (utilization_nonneg m)) he
  linarith

lemma accrueMarket_idx_pos {p : TokenDenomParams} (hp : ValidParams p) {e : ℚ}
    (he : 0 ≤ e) {m : MarketState} (hi : 0 < m.borrowIndex) :
    0 < (accrueMarket p e m).borrowIndex := by
  rw [accrueMarket_borrowIndex]
  exact mul_pos hi (lt_of_lt_of_le one_pos (one_add_rate_nonneg hp he m))

lemma accrueMarket_exchangeRate_ge {p : TokenDenomParams} (hp : ValidParams p) {e : ℚ}
    (he : 0 ≤ e) {m : MarketState} (hb : 0 ≤ m.totalBorrowed)
    (hu : 0 ≤ m.uTokenSupply) :
    m.exchangeRate ≤ (accrueMarket p e m).exchangeRate := by
  simp only [accrueMarket]
  split
  · exact le_refl _
  · rename_i hS
    have hSpos : 0 < m.uTokenSupply := lt_of_le_of_ne hu (Ne.symm hS)
    have hr := borrowRate_nonneg hp (utilization_nonneg m)
    have hint : 0 ≤ m.totalBorrowed * borrowRate p (utilization m) * e :=
      mul_nonneg (mul_nonneg hb hr) he
    have hnr : 0 ≤ m.totalBorrowed * borrowRate p (utilization m) * e -
        p.reserveFactor * (m.totalBorrowed * borrowRate p (utilization m) * e) := by
      nlinarith [hp.rf_le_one]
    rw [le_div_iff₀ hSpos]
    nlinarith

/-! ### Derived facts from the ledger invariant -/

lemma Inv.supplied_nonneg {env : Env} {s : LedgerState} (hI : Inv env s)
    (a d : String) : 0 ≤ (s.pos a d).supplied :=
  le_trans (hI.collat_nonneg a d) (hI.collat_le_supplied a d)

lemma Inv.owed_pos_nonneg {env : Env} {s : LedgerState} (hI : Inv env s)
    (a d : String) : 0 ≤ owed (s.pos a d) (s.market d) :=
  owed_nonneg (hI.borrowed_nonneg a d) (hI.idx_pos d) (hI.snap_pos a d)

lemma Inv.totalBorrowed_nonneg {env : Env} {s : LedgerState} (hI : Inv env s)
    (d : String) : 0 ≤ (s.market d).totalBorrowed := by
  rw [hI.borrow_sum d]
  exact sumOver_nonneg (fun a _ => hI.owed_pos_nonneg a d)

lemma Inv.uTokenSupply_nonneg {env : Env} {s : LedgerState} (hI : Inv env s)
    (d : String) : 0 ≤ (s.market d).uTokenSupply := by
  rw [hI.supply_sum d]
  exact sumOver_nonneg (fun a _ => hI.supplied_nonneg a d)

/-! ### Characterizations of the core mutations -/

@[simp] lemma accrueDenom_pos_eq (p : TokenDenomParams) (e : ℚ) (s : LedgerState)
    (d : String) : (accrueDenom p e s d).pos = s.pos := rfl

lemma accrueDenom_market (p : TokenDenomParams) (e : ℚ) (s : LedgerState)
    (d d2 : String) :
    (accrueDenom p e s d).market d2 =
      if d2 = d then accrueMarket p e (s.market d) else s.market d2 := rfl

lemma applySupplyChange_pos (s : LedgerState) (acct denom : String) (du : ℚ)
    (a d : String) :
    (applySupplyChange s acct denom du).pos a d =
      if a = acct ∧ d = denom then
        { s.pos acct denom with supplied := (s.pos acct denom).supplied + du }
      else s.pos a d := rfl

lemma applySupplyChange_market (s : LedgerState) (acct denom : String) (du : ℚ)
    (d : String) :
    (applySupplyChange s acct denom du).market d =
      if d = denom then
        { s.market denom with uTokenSupply := (s.market denom).uTokenSupply + du }
      else s.market d := rfl

lemma applyCollatChange_pos (s : LedgerState) (acct denom : String) (dc : ℚ)
    (a d : String) :
    (applyCollatChange s acct denom dc).pos a d =
      if a = acct ∧ d = denom then
        { s.pos acct denom with collateral := (s.pos acct denom).collateral + dc }
      else s.pos a d := rfl

@[simp] lemma applyCollatChange_market (s : LedgerState) (acct denom : String)
    (dc : ℚ) : (applyCollatChange s acct denom dc).market = s.market := rfl

lemma applyBorrow_pos (s : LedgerState) (acct denom : String) (amount : ℚ)
    (a d : String) :
    (applyBorrow s acct denom amount).pos a d =
      if a = acct ∧ d = denom then
        { s.pos acct denom with
            borrowedAmount := owed (s.pos acct denom) (s.market denom) + amount,
            indexSnapshot := (s.market denom).borrowIndex }
      else s.pos a d := rfl

lemma applyBorrow_market (s : LedgerState) (acct denom : String) (amount : ℚ)
    (d : String) :
    (applyBorrow s acct denom amount).market d =
      if d = denom then
        { s.market denom with totalBorrowed := (s.market denom).totalBorrowed + amount }
      else s.market d := rfl

lemma applyRepay_pos (s : LedgerState) (acct denom : String) (applied : ℚ)
    (a d : String) :
    (applyRepay s acct denom applied).pos a d =
      if a = acct ∧ d = denom then
        { s.pos acct denom with
            borrowedAmount := owed (s.pos acct denom) (s.market denom) - applied,
            indexSnapshot := (s.market denom).borrowIndex }
      else s.pos a d := rfl

lemma applyRepay_market (s : LedgerState) (acct denom : String) (applied : ℚ)
    (d : String) :
    (applyRepay s acct denom applied).market d =
      if d = denom then
        { s.market denom with totalBorrowed := (s.market denom).totalBorrowed - applied }
      else s.market d := rfl

@[simp] lemma applySeize_market (s : LedgerState) (bor liq denom : String) (x : ℚ) :
    (applySeize s bor liq denom x).market = s.market := rfl

/-- Summing a position-valued quantity over the account universe after a
single position update. -/
lemma sumOver_setPos {env : Env} (hnd : env.accounts.Nodup) (s : LedgerState)
    {acct : String} (hacct : acct ∈ env.accounts) (denom : String)
    (newPos : Position) (g : Position → ℚ) (d : String) :
    sumOver env.accounts (fun a => g ((setPos s acct denom newPos).pos a d)) =
      if d = denom then
        sumOver env.accounts (fun a => g (s.pos a d)) + g newPos - g (s.pos acct d)
      else sumOver env.accounts (fun a => g (s.pos a d)) := by
  by_cases hd : d = denom
  · subst hd
    rw [if_pos rfl]
    have hcongr : ∀ a ∈ env.accounts,
        g ((setPos s acct d newPos).pos a d) =
          (fun x => if x = acct then g newPos else (fun a2 => g (s.pos a2 d)) x) a := by
      intro a _
      rw [setPos_pos]
      by_cases ha : a = acct
      · simp [ha]
      · simp [ha]
    rw [sumOver_congr hcongr,
      sumOver_update hnd hacct (fun a2 => g (s.pos a2 d)) (g newPos)]
  · rw [if_neg hd]
    apply sumOver_congr
    intro a _
    rw [setPos_pos]
    simp [hd]


/-! ### Invariant preservation for the core mutations -/

lemma owed_accrue (pos : Position) (p : TokenDenomParams) (e : ℚ) (m : MarketState) :
    owed pos (accrueMarket p e m) =
      owed pos m * (1 + borrowRate p (utilization m) * e) := by
  unfold owed
  rw [accrueMarket_borrowIndex]
  ring

@[simp] lemma owed_update_supplied (pos : Position) (m : MarketState) (v : ℚ) :
    owed { pos with supplied := v } m = owed pos m := rfl

@[simp] lemma owed_update_collateral (pos : Position) (m : MarketState) (v : ℚ) :
    owed { pos with collateral := v } m = owed pos m := rfl

@[simp] lemma owed_update_supplied_collateral (pos : Position) (m : MarketState)
    (v w : ℚ) : owed { pos with supplied := v, collateral := w } m = owed pos m := rfl

@[simp] lemma owed_market_totalBorrowed (pos : Position) (m : MarketState) (v : ℚ) :
    owed pos { m with totalBorrowed := v } = owed pos m := rfl

@[simp] lemma owed_market_uTokenSupply (pos : Position) (m : MarketState) (v : ℚ) :
    owed pos { m with uTokenSupply := v } = owed pos m := rfl

lemma inv_accrueDenom {env : Env} {s : LedgerState} (hI : Inv env s)
    {p : TokenDenomParams} (hp : ValidParams p) {e : ℚ} (he : 0 ≤ e) (d : String) :
    Inv env (accrueDenom p e s d) := by
  constructor
  · intro d2
    rw [accrueDenom_market]
    by_cases hd : d2 = d
    · rw [if_pos hd]
      exact lt_of_lt_of_le (hI.er_pos d)
        (accrueMarket_exchangeRate_ge hp he (hI.totalBorrowed_nonneg d)
          (hI.uTokenSupply_nonneg d))
    · rw [if_neg hd]; exact hI.er_pos d2
  · intro d2
    rw [accrueDenom_market]
    by_cases hd : d2 = d
    · rw [if_pos hd]
      exact accrueMarket_idx_pos hp he (hI.idx_pos d)
    · rw [if_neg hd]; exact hI.idx_pos d2
  · intro a d2
    simp only [accrueDenom_pos_eq]
    exact hI.collat_nonneg a d2
  · intro a d2
    simp only [accrueDenom_pos_eq]
    exact hI.collat_le_supplied a d2
  · intro a d2
    simp only [accrueDenom_pos_eq]
    exact hI.borrowed_nonneg a d2
  · intro a d2
    simp only [accrueDenom_pos_eq]
    exact hI.snap_pos a d2
  · intro d2
    simp only [accrueDenom_pos_eq]
    rw [accrueDenom_market]
    by_cases hd : d2 = d
    · subst hd
      rw [if_pos rfl, accrueMarket_totalBorrowed]
      have hcongr : ∀ a ∈ env.accounts,
          owed (s.pos a d2) (accrueMarket p e (s.market d2)) =
            (fun a2 => owed (s.pos a2 d2) (s.market d2) *
              (1 + borrowRate p (utilization (s.market d2)) * e)) a := by
        intro a _
        exact owed_accrue (s.pos a d2) p e (s.market d2)
      rw [sumOver_congr hcongr, sumOver_mul, ← hI.borrow_sum d2]
    · rw [if_neg hd]
      exact hI.borrow_sum d2
  · intro d2
    simp only [accrueDenom_pos_eq]
    rw [accrueDenom_market]
    by_cases hd : d2 = d
    · subst hd
      rw [if_pos rfl, accrueMarket_uTokenSupply]
      exact hI.supply_sum d2
    · rw [if_neg hd]
      exact hI.supply_sum d2


lemma owed_congr_market (pos : Position) {m1 m2 : MarketState}
    (h : m1.borrowIndex = m2.borrowIndex) : owed pos m1 = owed pos m2 := by
  unfold owed
  rw [h]

lemma inv_applySupplyChange {env : Env} {s : LedgerState} (hI : Inv env s)
    (hnd : env.accounts.Nodup) {acct : String} (hacct : acct ∈ env.accounts)
    (denom : String) {du : ℚ}
    (hcs : (s.pos acct denom).collateral ≤ (s.pos acct denom).supplied + du) :
    Inv env (applySupplyChange s acct denom du) := by
  have hpos : (applySupplyChange s acct denom du).pos =
      (setPos s acct denom
        { s.pos acct denom with supplied := (s.pos acct denom).supplied + du }).pos := rfl
  constructor
  · intro d2
    rw [applySupplyChange_market]
    by_cases hd : d2 = denom
    · subst hd; rw [if_pos rfl]; exact hI.er_pos d2
    · rw [if_neg hd]; exact hI.er_pos d2
  · intro d2
    rw [applySupplyChange_market]
    by_cases hd : d2 = denom
    · subst hd; rw [if_pos rfl]; exact hI.idx_pos d2
    · rw [if_neg hd]; exact hI.idx_pos d2
  · intro a d2
    rw [applySupplyChange_pos]
    by_cases h : a = acct ∧ d2 = denom
    · rw [if_pos h]; exact hI.collat_nonneg acct denom
    · rw [if_neg h]; exact hI.collat_nonneg a d2
  · intro a d2
    rw [applySupplyChange_pos]
    by_cases h : a = acct ∧ d2 = denom
    · rw [if_pos h]; exact hcs
    · rw [if_neg h]; exact hI.collat_le_supplied a d2
  · intro a d2
    rw [applySupplyChange_pos]
    by_cases h : a = acct ∧ d2 = denom
    · rw [if_pos h]; exact hI.borrowed_nonneg acct denom
    · rw [if_neg h]; exact hI.borrowed_nonneg a d2
  · intro a d2
    rw [applySupplyChange_pos]
    by_cases h : a = acct ∧ d2 = denom
    · rw [if_pos h]; exact hI.snap_pos acct denom
    · rw [if_neg h]; exact hI.snap_pos a d2
  · intro d2
    have hidx : ((applySupplyChange s acct denom du).market d2).borrowIndex =
        (s.market d2).borrowIndex := by
      rw [applySupplyChange_market]
      by_cases hd : d2 = denom
      · subst hd; rw [if_pos rfl]
      · rw [if_neg hd]
    have hsum : sumOver env.accounts
        (fun a => owed ((applySupplyChange s acct denom du).pos a d2)
          ((applySupplyChange s acct denom du).market d2)) =
        sumOver env.accounts (fun a => owed (s.pos a d2) (s.market d2)) := by
      have h1 : ∀ a ∈ env.accounts,
          owed ((applySupplyChange s acct denom du).pos a d2)
            ((applySupplyChange s acct denom du).market d2) =
          (fun a2 => owed ((setPos s acct denom
            { s.pos acct denom with
                supplied := (s.pos acct denom).supplied + du }).pos a2 d2)
            (s.market d2)) a := by
        intro a _
        rw [hpos]
        exact owed_congr_market _ hidx
      rw [sumOver_congr h1,
        sumOver_setPos hnd s hacct denom _ (fun q => owed q (s.market d2)) d2]
      by_cases hd : d2 = denom
      · subst hd
        rw [if_pos rfl]
        simp only [owed_update_supplied]
        ring
      · rw [if_neg hd]
    rw [hsum, applySupplyChange_market]
    by_cases hd : d2 = denom
    · subst hd; rw [if_pos rfl]; exact hI.borrow_sum d2
    · rw [if_neg hd]; exact hI.borrow_sum d2
  · intro d2
    have hsum : sumOver env.accounts
        (fun a => ((applySupplyChange s acct denom du).pos a d2).supplied) =
        sumOver env.accounts (fun a => (s.pos a d2).supplied) +
          (if d2 = denom then du else 0) := by
      rw [hpos, sumOver_setPos hnd s hacct denom _ Position.supplied d2]
      by_cases hd : d2 = denom
      · subst hd
        rw [if_pos rfl, if_pos rfl]
        show sumOver env.accounts (fun a => (s.pos a d2).supplied) +
            ((s.pos acct d2).supplied + du) - (s.pos acct d2).supplied = _
        ring
      · rw [if_neg hd, if_neg hd]
        ring
    rw [hsum, applySupplyChange_market]
    by_cases hd : d2 = denom
    · subst hd
      rw [if_pos rfl, if_pos rfl]
      show (s.market d2).uTokenSupply + du = _
      rw [hI.supply_sum d2]
    · rw [if_neg hd, if_neg hd]
      rw [hI.supply_sum d2]
      ring

lemma inv_applyCollatChange {env : Env} {s : LedgerState} (hI : Inv env s)
    (hnd : env.accounts.Nodup) {acct : String} (hacct : acct ∈ env.accounts)
    (denom : String) {dc : ℚ}
    (h0 : 0 ≤ (s.pos acct denom).collateral + dc)
    (hcs : (s.pos acct denom).collateral + dc ≤ (s.pos acct denom).supplied) :
    Inv env (applyCollatChange s acct denom dc) := by
  have hpos : (applyCollatChange s acct denom dc).pos =
      (setPos s acct denom
        { s.pos acct denom with
            collateral := (s.pos acct denom).collateral + dc }).pos := rfl
  constructor
  · intro d2
    simp only [applyCollatChange_market]
    exact hI.er_pos d2
  · intro d2
    simp only [applyCollatChange_market]
    exact hI.idx_pos d2
  · intro a d2
    rw [applyCollatChange_pos]
    by_cases h : a = acct ∧ d2 = denom
    · rw [if_pos h]; exact h0
    · rw [if_neg h]; exact hI.collat_nonneg a d2
  · intro a d2
    rw [applyCollatChange_pos]
    by_cases h : a = acct ∧ d2 = denom
    · rw [if_pos h]; exact hcs
    · rw [if_neg h]; exact hI.collat_le_supplied a d2
  · intro a d2
    rw [applyCollatChange_pos]
    by_cases h : a = acct ∧ d2 = denom
    · rw [if_pos h]; exact hI.borrowed_nonneg acct denom
    · rw [if_neg h]; exact hI.borrowed_nonneg a d2
  · intro a d2
    rw [applyCollatChange_pos]
    by_cases h : a = acct ∧ d2 = denom
    · rw [if_pos h]; exact hI.snap_pos acct denom
    · rw [if_neg h]; exact hI.snap_pos a d2
  · intro d2
    simp only [applyCollatChange_market]
    have hsum : sumOver env.accounts
        (fun a => owed ((applyCollatChange s acct denom dc).pos a d2) (s.market d2)) =
        sumOver env.accounts (fun a => owed (s.pos a d2) (s.market d2)) := by
      rw [hpos, sumOver_setPos hnd s hacct denom _ (fun q => owed q (s.market d2)) d2]
      by_cases hd : d2 = denom
      · subst hd
        rw [if_pos rfl]
        simp only [owed_update_collateral]
        ring
      · rw [if_neg hd]
    rw [hsum]
    exact hI.borrow_sum d2
  · intro d2
    simp only [applyCollatChange_market]
    have hsum : sumOver env.accounts
        (fun a => ((applyCollatChange s acct denom dc).pos a d2).supplied) =
        sumOver env.accounts (fun a => (s.pos a d2).supplied) := by
      rw [hpos, sumOver_setPos hnd s hacct denom _ Position.supplied d2]
      by_cases hd : d2 = denom
      · subst hd
        rw [if_pos rfl]
        show sumOver env.accounts (fun a => (s.pos a d2).supplied) +
            (s.pos acct d2).supplied - (s.pos acct d2).supplied =
          sumOver env.accounts (fun a => (s.pos a d2).supplied)
        ring
      · rw [if_neg hd]
    rw [hsum]
    exact hI.supply_sum d2


lemma owed_touched (m : MarketState) (hm : m.borrowIndex ≠ 0) (pos : Position)
    (v : ℚ) :
    owed { pos with borrowedAmount := v, indexSnapshot := m.borrowIndex } m = v := by
  unfold owed
  show v * m.borrowIndex / m.borrowIndex = v
  field_simp

lemma inv_applyBorrow {env : Env} {s : LedgerState} (hI : Inv env s)
    (hnd : env.accounts.Nodup) {acct : String} (hacct : acct ∈ env.accounts)
    (denom : String) {amount : ℚ} (ha : 0 ≤ amount) :
    Inv env (applyBorrow s acct denom amount) := by
  have hpos : (applyBorrow s acct denom amount).pos =
      (setPos s acct denom
        { s.pos acct denom with
            borrowedAmount := owed (s.pos acct denom) (s.market denom) + amount,
            indexSnapshot := (s.market denom).borrowIndex }).pos := rfl
  constructor
  · intro d2
    rw [applyBorrow_market]
    by_cases hd : d2 = denom
    · subst hd; rw [if_pos rfl]; exact hI.er_pos d2
    · rw [if_neg hd]; exact hI.er_pos d2
  · intro d2
    rw [applyBorrow_market]
    by_cases hd : d2 = denom
    · subst hd; rw [if_pos rfl]; exact hI.idx_pos d2
    · rw [if_neg hd]; exact hI.idx_pos d2
  · intro a d2
    rw [applyBorrow_pos]
    by_cases h : a = acct ∧ d2 = denom
    · rw [if_pos h]; exact hI.collat_nonneg acct denom
    · rw [if_neg h]; exact hI.collat_nonneg a d2
  · intro a d2
    rw [applyBorrow_pos]
    by_cases h : a = acct ∧ d2 = denom
    · rw [if_pos h]; exact hI.collat_le_supplied acct denom
    · rw [if_neg h]; exact hI.collat_le_supplied a d2
  · intro a d2
    rw [applyBorrow_pos]
    by_cases h : a = acct ∧ d2 = denom
    · rw [if_pos h]
      exact add_nonneg (hI.owed_pos_nonneg acct denom) ha
    · rw [if_neg h]; exact hI.borrowed_nonneg a d2
  · intro a d2
    rw [applyBorrow_pos]
    by_cases h : a = acct ∧ d2 = denom
    · rw [if_pos h]; exact hI.idx_pos denom
    · rw [if_neg h]; exact hI.snap_pos a d2
  · intro d2
    have hidx : ((applyBorrow s acct denom amount).market d2).borrowIndex =
        (s.market d2).borrowIndex := by
      rw [applyBorrow_market]
      by_cases hd : d2 = denom
      · subst hd; rw [if_pos rfl]
      · rw [if_neg hd]
    have h1 : ∀ a ∈ env.accounts,
        owed ((applyBorrow s acct denom amount).pos a d2)
          ((applyBorrow s acct denom amount).market d2) =
        (fun a2 => owed ((setPos s acct denom
          { s.pos acct denom with
              borrowedAmount := owed (s.pos acct denom) (s.market denom) + amount,
              indexSnapshot := (s.market denom).borrowIndex }).pos a2 d2)
          (s.market d2)) a := by
      intro a _
      rw [hpos]
      exact owed_congr_market _ hidx
    rw [sumOver_congr h1,
      sumOver_setPos hnd s hacct denom _ (fun q => owed q (s.market d2)) d2,
      applyBorrow_market]
    by_cases hd : d2 = denom
    · subst hd
      rw [if_pos rfl, if_pos rfl]
      show (s.market d2).totalBorrowed + amount = _
      rw [owed_touched (s.market d2) (ne_of_gt (hI.idx_pos d2)), hI.borrow_sum d2]
      ring
    · rw [if_neg hd, if_neg hd]
      exact hI.borrow_sum d2
  · intro d2
    have hsum : sumOver env.accounts
        (fun a => ((applyBorrow s acct denom amount).pos a d2).supplied) =
        sumOver env.accounts (fun a => (s.pos a d2).supplied) := by
      rw [hpos, sumOver_setPos hnd s hacct denom _ Position.supplied d2]
      by_cases hd : d2 = denom
      · subst hd
        rw [if_pos rfl]
        show sumOver env.accounts (fun a => (s.pos a d2).supplied) +
            (s.pos acct d2).supplied - (s.pos acct d2).supplied = _
        ring
      · rw [if_neg hd]
    rw [hsum, applyBorrow_market]
    by_cases hd : d2 = denom
    · subst hd
      rw [if_pos rfl]
      exact hI.supply_sum d2
    · rw [if_neg hd]
      exact hI.supply_sum d2

lemma inv_applyRepay {env : Env} {s : LedgerState} (hI : Inv env s)
    (hnd : env.accounts.Nodup) {acct : String} (hacct : acct ∈ env.accounts)
    (denom : String) {applied : ℚ} (h0 : 0 ≤ applied)
    (hle : applied ≤ owed (s.pos acct denom) (s.market denom)) :
    Inv env (applyRepay s acct denom applied) := by
  have hpos : (applyRepay s acct denom applied).pos =
      (setPos s acct denom
        { s.pos acct denom with
            borrowedAmount := owed (s.pos acct denom) (s.market denom) - applied,
            indexSnapshot := (s.market denom).borrowIndex }).pos := rfl
  constructor
  · intro d2
    rw [applyRepay_market]
    by_cases hd : d2 = denom
    · subst hd; rw [if_pos rfl]; exact hI.er_pos d2
    · rw [if_neg hd]; exact hI.er_pos d2
  · intro d2
    rw [applyRepay_market]
    by_cases hd : d2 = denom
    · subst hd; rw [if_pos rfl]; exact hI.idx_pos d2
    · rw [if_neg hd]; exact hI.idx_pos d2
  · intro a d2
    rw [applyRepay_pos]
    by_cases h : a = acct ∧ d2 = denom
    · rw [if_pos h]; exact hI.collat_nonneg acct denom
    · rw [if_neg h]; exact hI.collat_nonneg a d2
  · intro a d2
    rw [applyRepay_pos]
    by_cases h : a = acct ∧ d2 = denom
    · rw [if_pos h]; exact hI.collat_le_supplied acct denom
    · rw [if_neg h]; exact hI.collat_le_supplied a d2
  · intro a d2
    rw [applyRepay_pos]
    by_cases h : a = acct ∧ d2 = denom
    · rw [if_pos h]
      exact sub_nonneg.mpr hle
    · rw [if_neg h]; exact hI.borrowed_nonneg a d2
  · intro a d2
    rw [applyRepay_pos]
    by_cases h : a = acct ∧ d2 = denom
    · rw [if_pos h]; exact hI.idx_pos denom
    · rw [if_neg h]; exact hI.snap_pos a d2
  · intro d2
    have hidx : ((applyRepay s acct denom applied).market d2).borrowIndex =
        (s.market d2).borrowIndex := by
      rw [applyRepay_market]
      by_cases hd : d2 = denom
      · subst hd; rw [if_pos rfl]
      · rw [if_neg hd]
    have h1 : ∀ a ∈ env.accounts,
        owed ((applyRepay s acct denom applied).pos a d2)
          ((applyRepay s acct denom applied).market d2) =
        (fun a2 => owed ((setPos s acct denom
          { s.pos acct denom with
              borrowedAmount := owed (s.pos acct denom) (s.market denom) - applied,
              indexSnapshot := (s.market denom).borrowIndex }).pos a2 d2)
          (s.market d2)) a := by
      intro a _
      rw [hpos]
      exact owed_congr_market _ hidx
    rw [sumOver_congr h1,
      sumOver_setPos hnd s hacct denom _ (fun q => owed q (s.market d2)) d2,
      applyRepay_market]
    by_cases hd : d2 = denom
    · subst hd
      rw [if_pos rfl, if_pos rfl]
      show (s.market d2).totalBorrowed - applied = _
      rw [owed_touched (s.market d2) (ne_of_gt (hI.idx_pos d2)), hI.borrow_sum d2]
      ring
    · rw [if_neg hd, if_neg hd]
      exact hI.borrow_sum d2
  · intro d2
    have hsum : sumOver env.accounts
        (fun a => ((applyRepay s acct denom applied).pos a d2).supplied) =
        sumOver env.accounts (fun a => (s.pos a d2).supplied) := by
      rw [hpos, sumOver_setPos hnd s hacct denom _ Position.supplied d2]
      by_cases hd : d2 = denom
      · subst hd
        rw [if_pos rfl]
        show sumOver env.accounts (fun a => (s.pos a d2).supplied) +
            (s.pos acct d2).supplied - (s.pos acct d2).supplied = _
        ring
      · rw [if_neg hd]
    rw [hsum, applyRepay_market]
    by_cases hd : d2 = denom
    · subst hd
      rw [if_pos rfl]
      exact hI.supply_sum d2
    · rw [if_neg hd]
      exact hI.supply_sum d2


lemma inv_applySeize {env : Env} {s : LedgerState} (hI : Inv env s)
    (hnd : env.accounts.Nodup) {bor liq : String} (hbor : bor ∈ env.accounts)
    (hliq : liq ∈ env.accounts) (denom : String) {x : ℚ} (hx0 : 0 ≤ x)
    (hxc : x ≤ (s.pos bor denom).collateral) :
    Inv env (applySeize s bor liq denom x) := by
  have hc0 := hI.collat_nonneg bor denom
  have hcs := hI.collat_le_supplied bor denom
  constructor
  · intro d2
    simp only [applySeize_market]
    exact hI.er_pos d2
  · intro d2
    simp only [applySeize_market]
    exact hI.idx_pos d2
  · intro a d2
    simp only [applySeize, setPos]
    split_ifs with h1 h2 h3 <;>
      first
        | exact hI.collat_nonneg a d2
        | (show (0 : ℚ) ≤ _ ; simp ; linarith [hI.collat_nonneg liq denom])
  · intro a d2
    simp only [applySeize, setPos]
    split_ifs with h1 h2 h3 <;>
      first
        | exact hI.collat_le_supplied a d2
        | (simp ; linarith [hI.collat_le_supplied liq denom])
  · intro a d2
    simp only [applySeize, setPos]
    split_ifs with h1 h2 h3 <;>
      first
        | exact hI.borrowed_nonneg a d2
        | (simp ; exact hI.borrowed_nonneg bor denom)
        | (simp ; exact hI.borrowed_nonneg liq denom)
  · intro a d2
    simp only [applySeize, setPos]
    split_ifs with h1 h2 h3 <;>
      first
        | exact hI.snap_pos a d2
        | (simp ; exact hI.snap_pos bor denom)
        | (simp ; exact hI.snap_pos liq denom)
  · intro d2
    simp only [applySeize_market]
    set pB2 : Position := ({ s.pos bor denom with supplied := (s.pos bor denom).supplied - x, collateral := (s.pos bor denom).collateral - x } : Position) with hpB2
    set s1 : LedgerState := setPos s bor denom pB2 with hs1
    set pL2 : Position :=
      { s1.pos liq denom with supplied := (s1.pos liq denom).supplied + x } with hpL2
    have hres : (applySeize s bor liq denom x).pos = (setPos s1 liq denom pL2).pos := rfl
    simp only [hres]
    rw [sumOver_setPos hnd s1 hliq denom pL2 (fun q => owed q (s.market d2)) d2]
    have hs1sum : sumOver env.accounts (fun a => owed (s1.pos a d2) (s.market d2)) =
        if d2 = denom then
          sumOver env.accounts (fun a => owed (s.pos a d2) (s.market d2)) +
            owed pB2 (s.market d2) - owed (s.pos bor d2) (s.market d2)
        else sumOver env.accounts (fun a => owed (s.pos a d2) (s.market d2)) := by
      simp only [hs1]
      exact sumOver_setPos hnd s hbor denom pB2 (fun q => owed q (s.market d2)) d2
    by_cases hd : d2 = denom
    · subst hd
      rw [if_pos rfl, hs1sum, if_pos rfl]
      have ho1 : owed pB2 (s.market d2) = owed (s.pos bor d2) (s.market d2) := rfl
      have ho2 : owed pL2 (s.market d2) = owed (s1.pos liq d2) (s.market d2) := rfl
      rw [ho1, ho2, hI.borrow_sum d2]
      ring
    · rw [if_neg hd, hs1sum, if_neg hd]
      exact hI.borrow_sum d2
  · intro d2
    simp only [applySeize_market]
    set pB2 : Position := ({ s.pos bor denom with supplied := (s.pos bor denom).supplied - x, collateral := (s.pos bor denom).collateral - x } : Position) with hpB2
    set s1 : LedgerState := setPos s bor denom pB2 with hs1
    set pL2 : Position :=
      { s1.pos liq denom with supplied := (s1.pos liq denom).supplied + x } with hpL2
    have hres : (applySeize s bor liq denom x).pos = (setPos s1 liq denom pL2).pos := rfl
    simp only [hres]
    rw [sumOver_setPos hnd s1 hliq denom pL2 Position.supplied d2]
    have hs1sum : sumOver env.accounts (fun a => (s1.pos a d2).supplied) =
        if d2 = denom then
          sumOver env.accounts (fun a => (s.pos a d2).supplied) +
            pB2.supplied - (s.pos bor d2).supplied
        else sumOver env.accounts (fun a => (s.pos a d2).supplied) := by
      simp only [hs1]
      exact sumOver_setPos hnd s hbor denom pB2 Position.supplied d2
    by_cases hd : d2 = denom
    · subst hd
      rw [if_pos rfl, hs1sum, if_pos rfl]
      have hsup2 : pL2.supplied = (s1.pos liq d2).supplied + x := rfl
      have hsupB : pB2.supplied = (s.pos bor d2).supplied - x := rfl
      rw [hsup2, hsupB, hI.supply_sum d2]
      ring
    · rw [if_neg hd, hs1sum, if_neg hd]
      exact hI.supply_sum d2

/-! ### Exchange rates through the core mutations -/

lemma applySupplyChange_er (s : LedgerState) (acct denom : String) (du : ℚ)
    (d : String) :
    ((applySupplyChange s acct denom du).market d).exchangeRate =
      (s.market d).exchangeRate := by
  rw [applySupplyChange_market]
  by_cases hd : d = denom
  · subst hd; rw [if_pos rfl]
  · rw [if_neg hd]

lemma applyBorrow_er (s : LedgerState) (acct denom : String) (amount : ℚ)
    (d : String) :
    ((applyBorrow s acct denom amount).market d).exchangeRate =
      (s.market d).exchangeRate := by
  rw [applyBorrow_market]
  by_cases hd : d = denom
  · subst hd; rw [if_pos rfl]
  · rw [if_neg hd]

lemma applyRepay_er (s : LedgerState) (acct denom : String) (applied : ℚ)
    (d : String) :
    ((applyRepay s acct denom applied).market d).exchangeRate =
      (s.market d).exchangeRate := by
  rw [applyRepay_market]
  by_cases hd : d = denom
  · subst hd; rw [if_pos rfl]
  · rw [if_neg hd]

lemma accrueDenom_er_ge {env : Env} {s : LedgerState} (hI : Inv env s)
    {p : TokenDenomParams} (hp : ValidParams p) {e : ℚ} (he : 0 ≤ e)
    (d d2 : String) :
    (s.market d2).exchangeRate ≤ ((accrueDenom p e s d).market d2).exchangeRate := by
  rw [accrueDenom_market]
  by_cases hd : d2 = d
  · subst hd
    rw [if_pos rfl]
    exact accrueMarket_exchangeRate_ge hp he (hI.totalBorrowed_nonneg d2)
      (hI.uTokenSupply_nonneg d2)
  · rw [if_neg hd]

lemma applyRepay_collateral (s : LedgerState) (acct denom : String) (applied : ℚ)
    (a d : String) :
    ((applyRepay s acct denom applied).pos a d).collateral =
      (s.pos a d).collateral := by
  rw [applyRepay_pos]
  by_cases h : a = acct ∧ d = denom
  · obtain ⟨h1, h2⟩ := h
    subst h1; subst h2
    rw [if_pos ⟨rfl, rfl⟩]
  · rw [if_neg h]


/-! ### Step-level preservation, one lemma per operation -/

lemma step_supply_ok {env : Env} {s : LedgerState} (hE : EnvWF env) (hI : Inv env s)
    {acct denom : String} {amount elapsed : ℚ}
    (hacct : acct ∈ env.accounts) (he : 0 ≤ elapsed)
    {s2 : LedgerState} {r : ℚ}
    (h : step env s (.supply acct denom amount elapsed) = .ok (s2, r)) :
    Inv env s2 ∧ ∀ d, (s.market d).exchangeRate ≤ (s2.market d).exchangeRate := by
  simp only [step] at h
  split at h
  · simp at h
  · rename_i p hreg
    split at h
    · simp at h
    · split at h
      · simp at h
      · rename_i hdis hamt
        simp only [Except.ok.injEq, Prod.mk.injEq] at h
        obtain ⟨h1, h2⟩ := h
        subst h1
        have hp := hE.validParams denom p hreg
        have hI1 := inv_accrueDenom hI hp he denom
        have hamt2 : 0 < amount := lt_of_not_ge hamt
        have her1 := hI1.er_pos denom
        have huA : 0 ≤ amount / ((accrueDenom p elapsed s denom).market denom).exchangeRate :=
          le_of_lt (div_pos hamt2 her1)
        constructor
        · refine inv_applySupplyChange hI1 hE.accountsNodup hacct denom ?_
          have hcs := hI1.collat_le_supplied acct denom
          linarith
        · intro d
          rw [applySupplyChange_er]
          exact accrueDenom_er_ge hI hp he denom d


lemma step_accrue_ok {env : Env} {s : LedgerState} (hE : EnvWF env) (hI : Inv env s)
    {denom : String} {elapsed : ℚ} (he : 0 ≤ elapsed)
    {s2 : LedgerState} {r : ℚ}
    (h : step env s (.accrue denom elapsed) = .ok (s2, r)) :
    Inv env s2 ∧ ∀ d, (s.market d).exchangeRate ≤ (s2.market d).exchangeRate := by
  simp only [step] at h
  split at h
  · simp at h
  · rename_i p hreg
    simp only [Except.ok.injEq, Prod.mk.injEq] at h
    obtain ⟨h1, h2⟩ := h
    subst h1
    have hp := hE.validParams denom p hreg
    exact ⟨inv_accrueDenom hI hp he denom, fun d => accrueDenom_er_ge hI hp he denom d⟩

lemma step_collateralize_ok {env : Env} {s : LedgerState} (hE : EnvWF env)
    (hI : Inv env s) {acct denom : String} {uAmount elapsed : ℚ}
    (hacct : acct ∈ env.accounts) (he : 0 ≤ elapsed)
    {s2 : LedgerState} {r : ℚ}
    (h : step env s (.collateralize acct denom uAmount elapsed) = .ok (s2, r)) :
    Inv env s2 ∧ ∀ d, (s.market d).exchangeRate ≤ (s2.market d).exchangeRate := by
  simp only [step] at h
  split at h
  · simp at h
  · rename_i p hreg
    split at h
    · simp at h
    · split at h
      · simp at h
      · rename_i hamt hbal
        simp only [Except.ok.injEq, Prod.mk.injEq] at h
        obtain ⟨h1, h2⟩ := h
        subst h1
        have hp := hE.validParams denom p hreg
        have hI1 := inv_accrueDenom hI hp he denom
        have hamt2 : 0 < uAmount := lt_of_not_ge hamt
        constructor
        · refine inv_applyCollatChange hI1 hE.accountsNodup hacct denom ?_ ?_
          · have := hI1.collat_nonneg acct denom
            linarith
          · have hfree := not_lt.mp hbal
            linarith
        · intro d
          simp only [applyCollatChange_market]
          exact accrueDenom_er_ge hI hp he denom d

lemma step_decollateralize_ok {env : Env} {s : LedgerState} (hE : EnvWF env)
    (hI : Inv env s) {acct denom : String} {uAmount elapsed : ℚ}
    (hacct : acct ∈ env.accounts) (he : 0 ≤ elapsed)
    {s2 : LedgerState} {r : ℚ}
    (h : step env s (.decollateralize acct denom uAmount elapsed) = .ok (s2, r)) :
    Inv env s2 ∧ ∀ d, (s.market d).exchangeRate ≤ (s2.market d).exchangeRate := by
  simp only [step] at h
  split at h
  · simp at h
  · rename_i p hreg
    split at h
    · simp at h
    · split at h
      · simp at h
      · rename_i hamt hbal
        split at h
        · simp at h
        · rename_i u hcbl
          simp only [Except.ok.injEq, Prod.mk.injEq] at h
          obtain ⟨h1, h2⟩ := h
          subst h1
          have hp := hE.validParams denom p hreg
          have hI1 := inv_accrueDenom hI hp he denom
          have hamt2 : 0 < uAmount := lt_of_not_ge hamt
          have hfree := not_lt.mp hbal
          constructor
          · refine inv_applyCollatChange hI1 hE.accountsNodup hacct denom ?_ ?_
            · linarith
            · have h1 := hI1.collat_le_supplied acct denom
              linarith
          · intro d
            simp only [applyCollatChange_market]
            exact accrueDenom_er_ge hI hp he denom d

lemma step_withdraw_ok {env : Env} {s : LedgerState} (hE : EnvWF env)
    (hI : Inv env s) {acct denom : String} {uAmount elapsed : ℚ}
    (hacct : acct ∈ env.accounts) (he : 0 ≤ elapsed)
    {s2 : LedgerState} {r : ℚ}
    (h : step env s (.withdraw acct denom uAmount elapsed) = .ok (s2, r)) :
    Inv env s2 ∧ ∀ d, (s.market d).exchangeRate ≤ (s2.market d).exchangeRate := by
  simp only [step] at h
  split at h
  · simp at h
  · rename_i p hreg
    split at h
    · simp at h
    · split at h
      · simp at h
      · rename_i hamt hbal
        split at h
        · simp at h
        · rename_i u hcbl
          simp only [Except.ok.injEq, Prod.mk.injEq] at h
          obtain ⟨h1, h2⟩ := h
          subst h1
          have hp := hE.validParams denom p hreg
          have hI1 := inv_accrueDenom hI hp he denom
          have hfree := not_lt.mp hbal
          constructor
          · refine inv_applySupplyChange hI1 hE.accountsNodup hacct denom ?_
            linarith
          · intro d
            rw [applySupplyChange_er]
            exact accrueDenom_er_ge hI hp he denom d

lemma step_borrow_ok {env : Env} {s : LedgerState} (hE : EnvWF env)
    (hI : Inv env s) {acct denom : String} {amount elapsed : ℚ}
    (hacct : acct ∈ env.accounts) (he : 0 ≤ elapsed)
    {s2 : LedgerState} {r : ℚ}
    (h : step env s (.borrow acct denom amount elapsed) = .ok (s2, r)) :
    Inv env s2 ∧ ∀ d, (s.market d).exchangeRate ≤ (s2.market d).exchangeRate := by
  simp only [step] at h
  split at h
  · simp at h
  · rename_i p hreg
    split at h
    · simp at h
    · split at h
      · simp at h
      · rename_i hdis hamt
        split at h
        · simp at h
        · rename_i u hcbl
          simp only [Except.ok.injEq, Prod.mk.injEq] at h
          obtain ⟨h1, h2⟩ := h
          subst h1
          have hp := hE.validParams denom p hreg
          have hI1 := inv_accrueDenom hI hp he denom
          have hamt2 : 0 < amount := lt_of_not_ge hamt
          constructor
          · exact inv_applyBorrow hI1 hE.accountsNodup hacct denom hamt2.le
          · intro d
            rw [applyBorrow_er]
            exact accrueDenom_er_ge hI hp he denom d

lemma step_repay_ok {env : Env} {s : LedgerState} (hE : EnvWF env)
    (hI : Inv env s) {acct denom : String} {amount elapsed : ℚ}
    (hacct : acct ∈ env.accounts) (he : 0 ≤ elapsed)
    {s2 : LedgerState} {r : ℚ}
    (h : step env s (.repay acct denom amount elapsed) = .ok (s2, r)) :
    Inv env s2 ∧ ∀ d, (s.market d).exchangeRate ≤ (s2.market d).exchangeRate := by
  simp only [step] at h
  split at h
  · simp at h
  · rename_i p hreg
    split at h
    · simp at h
    · rename_i hamt
      simp only [Except.ok.injEq, Prod.mk.injEq] at h
      obtain ⟨h1, h2⟩ := h
      subst h1
      have hp := hE.validParams denom p hreg
      have hI1 := inv_accrueDenom hI hp he denom
      have hamt2 : 0 < amount := lt_of_not_ge hamt
      constructor
      · refine inv_applyRepay hI1 hE.accountsNodup hacct denom ?_ ?_
        · exact le_min hamt2.le (hI1.owed_pos_nonneg acct denom)
        · exact min_le_right _ _
      · intro d
        rw [applyRepay_er]
        exact accrueDenom_er_ge hI hp he denom d


lemma step_liquidate_ok {env : Env} {s : LedgerState} (hE : EnvWF env)
    (hI : Inv env s) {liq bor rDenom sDenom : String} {amount elapsed : ℚ}
    (hliq : liq ∈ env.accounts) (hbor : bor ∈ env.accounts) (he : 0 ≤ elapsed)
    {s2 : LedgerState} {r : ℚ}
    (h : step env s (.liquidate liq bor rDenom sDenom amount elapsed) = .ok (s2, r)) :
    Inv env s2 ∧ ∀ d, (s.market d).exchangeRate ≤ (s2.market d).exchangeRate := by
  simp only [step] at h
  split at h
  · rename_i pR pS hregR hregS
    split at h
    · simp at h
    · rename_i hamt
      split at h
      · rename_i bv tv hbvtv
        split at h
        · simp at h
        · rename_i helig
          split at h
          · rename_i prR prS hprR hprS
            simp only [Except.ok.injEq, Prod.mk.injEq] at h
            obtain ⟨h1, h2⟩ := h
            subst h1
            have hpR := hE.validParams rDenom pR hregR
            have hpS := hE.validParams sDenom pS hregS
            have hI1 : Inv env (accrueDenom pR elapsed s rDenom) :=
              inv_accrueDenom hI hpR he rDenom
            have hImid : Inv env (if sDenom = rDenom then accrueDenom pR elapsed s rDenom
                else accrueDenom pS elapsed (accrueDenom pR elapsed s rDenom) sDenom) := by
              by_cases hsr : sDenom = rDenom
              · rw [if_pos hsr]; exact hI1
              · rw [if_neg hsr]; exact inv_accrueDenom hI1 hpS he sDenom
            set smid : LedgerState := if sDenom = rDenom then accrueDenom pR elapsed s rDenom
                else accrueDenom pS elapsed (accrueDenom pR elapsed s rDenom) sDenom
              with hsmid
            set owedB : ℚ := owed (smid.pos bor rDenom) (smid.market rDenom) with howedB
            set rep0 : ℚ := min amount owedB with hrep0eq
            set need : ℚ := rep0 * prR * (1 + pS.liquidationIncentive) /
              (prS * (smid.market sDenom).exchangeRate) with hneedeq
            set collat : ℚ := (smid.pos bor sDenom).collateral with hcollateq
            set seizeU : ℚ := if need ≤ collat then need else collat with hseizeUeq
            set rep : ℚ := if need ≤ collat then rep0 else rep0 * (collat / need)
              with hrepeq
            have howedB0 : 0 ≤ owedB := hImid.owed_pos_nonneg bor rDenom
            have hamt2 : 0 < amount := lt_of_not_ge hamt
            have hrep00 : 0 ≤ rep0 := le_min hamt2.le howedB0
            have hprRpos : 0 < prR := hE.pricePos rDenom prR hprR
            have hprSpos : 0 < prS := hE.pricePos sDenom prS hprS
            have herS : 0 < (smid.market sDenom).exchangeRate := hImid.er_pos sDenom
            have hneed0 : 0 ≤ need := by
              rw [hneedeq]
              refine div_nonneg ?_ (mul_nonneg hprSpos.le herS.le)
              refine mul_nonneg (mul_nonneg hrep00 hprRpos.le) ?_
              have := hpS.incentive_nonneg
              linarith
            have hcollat0 : 0 ≤ collat := hImid.collat_nonneg bor sDenom
            have hseize0 : 0 ≤ seizeU := by
              rw [hseizeUeq]
              split
              · exact hneed0
              · exact hcollat0
            have hseizele : seizeU ≤ collat := by
              rw [hseizeUeq]
              split
              · assumption
              · exact le_refl _
            have hrepfacts : 0 ≤ rep ∧ rep ≤ owedB := by
              rw [hrepeq]
              split
              · exact ⟨hrep00, min_le_right _ _⟩
              · rename_i hcond
                have hneedpos : 0 < need := lt_of_le_of_lt hcollat0 (lt_of_not_ge hcond)
                have hfr1 : collat / need ≤ 1 :=
                  (div_le_one hneedpos).mpr (lt_of_not_ge hcond).le
                have hfr0 : 0 ≤ collat / need := div_nonneg hcollat0 hneedpos.le
                constructor
                · exact mul_nonneg hrep00 hfr0
                · calc rep0 * (collat / need) ≤ rep0 * 1 :=
                      mul_le_mul_of_nonneg_left hfr1 hrep00
                  _ = rep0 := mul_one _
                  _ ≤ owedB := min_le_right _ _
            have hI3 : Inv env (applyRepay smid bor rDenom rep) :=
              inv_applyRepay hImid hE.accountsNodup hbor rDenom hrepfacts.1 hrepfacts.2
            have hxc : seizeU ≤ ((applyRepay smid bor rDenom rep).pos bor sDenom).collateral := by
              rw [applyRepay_collateral]
              exact hseizele
            have hI4 := inv_applySeize hI3 hE.accountsNodup hbor hliq sDenom hseize0 hxc
            refine ⟨hI4, ?_⟩
            intro d
            simp only [applySeize_market]
            rw [applyRepay_er]
            have hmono1 : (s.market d).exchangeRate ≤
                ((accrueDenom pR elapsed s rDenom).market d).exchangeRate :=
              accrueDenom_er_ge hI hpR he rDenom d
            rw [hsmid]
            by_cases hsr : sDenom = rDenom
            · rw [if_pos hsr]
              exact hmono1
            · rw [if_neg hsr]
              exact le_trans hmono1 (accrueDenom_er_ge hI1 hpS he sDenom d)
          · simp at h
      · simp at h
  · simp at h


/-- Any successful operation preserves the ledger invariant and never
decreases any denomination's exchange rate. -/
lemma step_ok {env : Env} {s : LedgerState} {op : Op} {s2 : LedgerState} {r : ℚ}
    (hE : EnvWF env) (hI : Inv env s) (hWF : OpWF env op)
    (h : step env s op = .ok (s2, r)) :
    Inv env s2 ∧ ∀ d, (s.market d).exchangeRate ≤ (s2.market d).exchangeRate := by
  cases op with
  | supply a dn am e => exact step_supply_ok hE hI hWF.1 hWF.2 h
  | withdraw a dn am e => exact step_withdraw_ok hE hI hWF.1 hWF.2 h
  | collateralize a dn am e => exact step_collateralize_ok hE hI hWF.1 hWF.2 h
  | decollateralize a dn am e => exact step_decollateralize_ok hE hI hWF.1 hWF.2 h
  | borrow a dn am e => exact step_borrow_ok hE hI hWF.1 hWF.2 h
  | repay a dn am e => exact step_repay_ok hE hI hWF.1 hWF.2 h
  | liquidate l b rd sd am e => exact step_liquidate_ok hE hI hWF.1 hWF.2.1 hWF.2.2 h
  | accrue dn e => exact step_accrue_ok hE hI hWF h

lemma exec_ok {env : Env} {s : LedgerState} {op : Op}
    (hE : EnvWF env) (hI : Inv env s) (hWF : OpWF env op) :
    Inv env (exec env s op) ∧
      ∀ d, (s.market d).exchangeRate ≤ ((exec env s op).market d).exchangeRate := by
  unfold exec
  cases hstep : step env s op with
  | ok pr =>
    obtain ⟨s2, r⟩ := pr
    exact step_ok hE hI hWF hstep
  | error e => exact ⟨hI, fun d => le_refl _⟩

lemma run_ok {env : Env} (hE : EnvWF env) :
    ∀ (ops : List Op) (s : LedgerState), Inv env s → (∀ op ∈ ops, OpWF env op) →
      Inv env (run env s ops) ∧
      ∀ d, (s.market d).exchangeRate ≤ ((run env s ops).market d).exchangeRate := by
  intro ops
  induction ops with
  | nil => exact fun s hI _ => ⟨hI, fun d => le_refl _⟩
  | cons op rest ih =>
    intro s hI hWF
    have h1 := exec_ok hE hI (hWF op (by simp))
    have h2 := ih (exec env s op) h1.1 (fun op2 hop2 => hWF op2 (by simp [hop2]))
    exact ⟨h2.1, fun d => le_trans (h1.2 d) (h2.2 d)⟩

lemma run_append (env : Env) (l1 l2 : List Op) :
    ∀ s : LedgerState, run env s (l1 ++ l2) = run env (run env s l1) l2 := by
  induction l1 with
  | nil => intro s; rfl
  | cons op rest ih =>
    intro s
    show run env (exec env s op) (rest ++ l2) = _
    exact ih (exec env s op)


/-! ### Claim theorems for the engine -/

/-- C3: for every denomination, across any sequence of engine operations
(supply, withdraw, collateralize, decollateralize, borrow, repay,
liquidate, accrue) the uToken exchange rate never decreases: after any
further well-formed operations the rate is at least what it was. The `Op`
type has no bad-debt write-down constructor, so every such sequence
contains no explicit write-down event. -/
theorem exchange_rate_never_decreases (env : Env) (s : LedgerState)
    (hE : EnvWF env) (hI : Inv env s) (ops1 ops2 : List Op)
    (hWF1 : ∀ op ∈ ops1, OpWF env op) (hWF2 : ∀ op ∈ ops2, OpWF env op)
    (d : String) :
    ((run env s ops1).market d).exchangeRate ≤
      ((run env s (ops1 ++ ops2)).market d).exchangeRate := by
  rw [run_append]
  have h1 := run_ok hE ops1 s hI hWF1
  exact (run_ok hE ops2 (run env s ops1) h1.1 hWF2).2 d

/-- C4: for every account and denomination, after any sequence of
well-formed ledger operations the collateral-designated uToken amount is
non-negative and at most the supplied uToken amount, and every single
operation preserves this bound. -/
theorem collateral_le_supplied_invariant (env : Env) (s : LedgerState)
    (hE : EnvWF env) (hI : Inv env s) (ops : List Op)
    (hWF : ∀ op ∈ ops, OpWF env op) :
    (∀ a d, 0 ≤ ((run env s ops).pos a d).collateral ∧
      ((run env s ops).pos a d).collateral ≤ ((run env s ops).pos a d).supplied) ∧
    (∀ op, OpWF env op → ∀ a d,
      ((exec env s op).pos a d).collateral ≤ ((exec env s op).pos a d).supplied) := by
  constructor
  · intro a d
    have h := (run_ok hE ops s hI hWF).1
    exact ⟨h.collat_nonneg a d, h.collat_le_supplied a d⟩
  · intro op hop a d
    exact (exec_ok hE hI hop).1.collat_le_supplied a d

/-- C5: when an operation returns a typed failure, the observable ledger
state is exactly the input state: every denomination's MarketState and
every Position entry are unchanged, so no partial application of the
accrual step or of the principal mutation is ever visible. -/
theorem failed_op_leaves_state_unchanged (env : Env) (s : LedgerState) (op : Op)
    (e : LedgerError) (h : step env s op = .error e) :
    (∀ d, (exec env s op).market d = s.market d) ∧
    (∀ a d, (exec env s op).pos a d = s.pos a d) := by
  unfold exec
  rw [h]
  exact ⟨fun d => rfl, fun a d => rfl⟩

/-- C6: for every account, denomination and positive amount strictly
greater than the account's owed balance (measured, as the engine does,
after the operation's accrual step), repay does not fail: it succeeds,
the amount actually applied and returned is exactly the owed balance, the
market's totalBorrowed decreases by that applied amount, and the
account's owed balance is brought to zero. -/
theorem repay_overpayment_clamped (env : Env) (s : LedgerState)
    (acct denom : String) (amount elapsed : ℚ) (p : TokenDenomParams)
    (hreg : env.registry denom = some p) (hamt : 0 < amount)
    (hover : owed ((accrueDenom p elapsed s denom).pos acct denom)
      ((accrueDenom p elapsed s denom).market denom) < amount) :
    step env s (.repay acct denom amount elapsed) =
      Except.ok (applyRepay (accrueDenom p elapsed s denom) acct denom
          (owed ((accrueDenom p elapsed s denom).pos acct denom)
            ((accrueDenom p elapsed s denom).market denom)),
        owed ((accrueDenom p elapsed s denom).pos acct denom)
          ((accrueDenom p elapsed s denom).market denom)) ∧
    ((exec env s (.repay acct denom amount elapsed)).market denom).totalBorrowed =
      ((accrueDenom p elapsed s denom).market denom).totalBorrowed -
        owed ((accrueDenom p elapsed s denom).pos acct denom)
          ((accrueDenom p elapsed s denom).market denom) ∧
    owed ((exec env s (.repay acct denom amount elapsed)).pos acct denom)
      ((exec env s (.repay acct denom amount elapsed)).market denom) = 0 := by
  have hstep : step env s (.repay acct denom amount elapsed) =
      Except.ok (applyRepay (accrueDenom p elapsed s denom) acct denom
          (owed ((accrueDenom p elapsed s denom).pos acct denom)
            ((accrueDenom p elapsed s denom).market denom)),
        owed ((accrueDenom p elapsed s denom).pos acct denom)
          ((accrueDenom p elapsed s denom).market denom)) := by
    simp only [step, hreg]
    rw [if_neg (not_le.mpr hamt), min_eq_right hover.le]
  have hexec : exec env s (.repay acct denom amount elapsed) =
      applyRepay (accrueDenom p elapsed s denom) acct denom
        (owed ((accrueDenom p elapsed s denom).pos acct denom)
          ((accrueDenom p elapsed s denom).market denom)) := by
    unfold exec
    rw [hstep]
  refine ⟨hstep, ?_, ?_⟩
  · rw [hexec, applyRepay_market, if_pos rfl]
  · rw [hexec]
    have hpos := applyRepay_pos (accrueDenom p elapsed s denom) acct denom
      (owed ((accrueDenom p elapsed s denom).pos acct denom)
        ((accrueDenom p elapsed s denom).market denom)) acct denom
    rw [hpos, if_pos ⟨rfl, rfl⟩]
    unfold owed
    simp

/-- C7: the interest-rate computation uses utilization
`u = totalBorrowed / totalSupplied`, defined as 0 when totalSupplied is 0
and clamped to `[0,1]`, and the supply rate it returns equals
`borrowRate * u * (1 - reserveFactor)`. -/
theorem interest_rate_model_spec (m : MarketState) (p : TokenDenomParams) :
    utilization m = (if m.totalSupplied = 0 then 0
      else min 1 (max 0 (m.totalBorrowed / m.totalSupplied))) ∧
    0 ≤ utilization m ∧ utilization m ≤ 1 ∧
    (rates m p).2 = (rates m p).1 * utilization m * (1 - p.reserveFactor) :=
  ⟨rfl, utilization_nonneg m, utilization_le_one m, rfl⟩

lemma accrueMarket_zero (p : TokenDenomParams) (m : MarketState) :
    accrueMarket p 0 m = m := by
  obtain ⟨u, b, res, er, idx⟩ := m
  simp only [accrueMarket, mul_zero, zero_mul, add_zero, sub_zero, mul_one,
    MarketState.mk.injEq]
  refine ⟨trivial, trivial, trivial, ?_, trivial⟩
  split
  · rfl
  · rename_i hu
    exact mul_div_cancel_left₀ er hu

/-- C8: calling accrue with zero elapsed time leaves the market state,
hence the exchange rate and the borrow and supply APYs, unchanged, and
repeating the zero-elapsed accrue any number of times is idempotent. -/
theorem accrue_zero_elapsed_idempotent (p : TokenDenomParams) (m : MarketState)
    (n : ℕ) :
    (accrueMarket p 0 m).exchangeRate = m.exchangeRate ∧
    rates (accrueMarket p 0 m) p = rates m p ∧
    (accrueMarket p 0)^[n] m = m := by
  refine ⟨by rw [accrueMarket_zero], by rw [accrueMarket_zero], ?_⟩
  induction n with
  | zero => rfl
  | succ k ih => rw [Function.iterate_succ_apply, accrueMarket_zero, ih]


/-! ### Concrete fixtures for the engine witnesses -/

/-- A concrete, valid parameter set: 80% collateral weight, 85%
liquidation threshold, 10% reserve factor, 2% base rate, kink at 80%
utilization. -/
def paramsW : TokenDenomParams where
  collateralWeight := 4/5
  liquidationThreshold := 17/20
  reserveFactor := 1/10
  baseRate := 1/50
  kink := 4/5
  slopeLow := 1/10
  slopeHigh := 1
  supplyEnabled := true
  borrowEnabled := true
  liquidationIncentive := 1/10

/-- A concrete market: 100 uTokens outstanding at exchange rate 1, 10
borrowed, accrual index 1. -/
def marketW : MarketState where
  uTokenSupply := 100
  totalBorrowed := 10
  totalReserved := 0
  exchangeRate := 1
  borrowIndex := 1

/-- A concrete position: 100 uTokens supplied, none collateralized, 10
borrowed at index snapshot 1. -/
def posW : Position where
  supplied := 100
  collateral := 0
  borrowedAmount := 10
  indexSnapshot := 1

/-- A concrete environment: every denomination registered with `paramsW`,
priced at 1, one denomination and one account. -/
def envW : Env where
  registry := fun _ => some paramsW
  price := fun _ => some 1
  denoms := ["uumee"]
  accounts := ["alice"]

/-- A concrete ledger state: every market is `marketW`, every position is
`posW`. -/
def stateW : LedgerState where
  market := fun _ => marketW
  pos := fun _ _ => posW

lemma paramsW_valid : ValidParams paramsW := by
  constructor <;> norm_num [paramsW]

lemma envW_wf : EnvWF envW := by
  constructor
  · intro d p h
    have hp : paramsW = p := by simpa [envW] using h
    exact hp ▸ paramsW_valid
  · intro d q h
    have hq : (1 : ℚ) = q := by simpa [envW] using h
    rw [← hq]
    norm_num
  · simp [envW]

lemma stateW_inv : Inv envW stateW := by
  constructor
  · intro d; norm_num [stateW, marketW]
  · intro d; norm_num [stateW, marketW]
  · intro a d; norm_num [stateW, posW]
  · intro a d; norm_num [stateW, posW]
  · intro a d; norm_num [stateW, posW]
  · intro a d; norm_num [stateW, posW]
  · intro d; norm_num [stateW, marketW, posW, sumOver, owed, envW]
  · intro d; norm_num [stateW, marketW, posW, sumOver, envW]

lemma opsW1_wf : ∀ op ∈ [Op.supply "alice" "uumee" 5 0], OpWF envW op := by
  intro op hop
  simp only [List.mem_singleton] at hop
  subst hop
  exact ⟨by simp [envW], le_refl 0⟩

lemma opsW2_wf : ∀ op ∈ [Op.accrue "uumee" 1], OpWF envW op := by
  intro op hop
  simp only [List.mem_singleton] at hop
  subst hop
  show (0 : ℚ) ≤ 1
  norm_num

lemma opsW3_wf : ∀ op ∈ [Op.collateralize "alice" "uumee" 30 0], OpWF envW op := by
  intro op hop
  simp only [List.mem_singleton] at hop
  subst hop
  exact ⟨by simp [envW], le_refl 0⟩

/-- Witness for C3 at a concrete environment, state and operation
sequence. -/
theorem exchange_rate_never_decreases_witness :
    EnvWF envW ∧ Inv envW stateW ∧
    ((run envW stateW [Op.supply "alice" "uumee" 5 0]).market "uumee").exchangeRate ≤
      ((run envW stateW
        ([Op.supply "alice" "uumee" 5 0] ++ [Op.accrue "uumee" 1])).market
          "uumee").exchangeRate :=
  ⟨envW_wf, stateW_inv,
    exchange_rate_never_decreases envW stateW envW_wf stateW_inv
      [Op.supply "alice" "uumee" 5 0] [Op.accrue "uumee" 1]
      opsW1_wf opsW2_wf "uumee"⟩

/-- Witness for C4 at a concrete environment, state, operation sequence,
account and denomination. -/
theorem collateral_le_supplied_invariant_witness :
    EnvWF envW ∧ Inv envW stateW ∧
    (0 ≤ ((run envW stateW [Op.collateralize "alice" "uumee" 30 0]).pos
        "alice" "uumee").collateral ∧
      ((run envW stateW [Op.collateralize "alice" "uumee" 30 0]).pos
        "alice" "uumee").collateral ≤
      ((run envW stateW [Op.collateralize "alice" "uumee" 30 0]).pos
        "alice" "uumee").supplied) :=
  ⟨envW_wf, stateW_inv,
    (collateral_le_supplied_invariant envW stateW envW_wf stateW_inv
      [Op.collateralize "alice" "uumee" 30 0] opsW3_wf).1 "alice" "uumee"⟩

/-- Witness for C5: a supply of a non-positive amount fails with
`invalidAmount` and leaves the concrete state untouched. -/
theorem failed_op_leaves_state_unchanged_witness :
    step envW stateW (Op.supply "alice" "uumee" (-1) 0) =
      Except.error LedgerError.invalidAmount ∧
    (exec envW stateW (Op.supply "alice" "uumee" (-1) 0)).market "uumee" =
      stateW.market "uumee" ∧
    (exec envW stateW (Op.supply "alice" "uumee" (-1) 0)).pos "alice" "uumee" =
      stateW.pos "alice" "uumee" := by
  have herr : step envW stateW (Op.supply "alice" "uumee" (-1) 0) =
      Except.error LedgerError.invalidAmount := rfl
  have h := failed_op_leaves_state_unchanged envW stateW
    (Op.supply "alice" "uumee" (-1) 0) LedgerError.invalidAmount herr
  exact ⟨herr, h.1 "uumee", h.2 "alice" "uumee"⟩

/-- Witness for C6: repaying 50 against an owed balance of 10 succeeds,
applies the owed balance and clears the debt. -/
theorem repay_overpayment_clamped_witness :
    (0 : ℚ) < 50 ∧
    owed ((accrueDenom paramsW 0 stateW "uumee").pos "alice" "uumee")
      ((accrueDenom paramsW 0 stateW "uumee").market "uumee") < 50 ∧
    (step envW stateW (Op.repay "alice" "uumee" 50 0) =
      Except.ok (applyRepay (accrueDenom paramsW 0 stateW "uumee") "alice" "uumee"
          (owed ((accrueDenom paramsW 0 stateW "uumee").pos "alice" "uumee")
            ((accrueDenom paramsW 0 stateW "uumee").market "uumee")),
        owed ((accrueDenom paramsW 0 stateW "uumee").pos "alice" "uumee")
          ((accrueDenom paramsW 0 stateW "uumee").market "uumee")) ∧
    ((exec envW stateW (Op.repay "alice" "uumee" 50 0)).market "uumee").totalBorrowed =
      ((accrueDenom paramsW 0 stateW "uumee").market "uumee").totalBorrowed -
        owed ((accrueDenom paramsW 0 stateW "uumee").pos "alice" "uumee")
          ((accrueDenom paramsW 0 stateW "uumee").market "uumee") ∧
    owed ((exec envW stateW (Op.repay "alice" "uumee" 50 0)).pos "alice" "uumee")
      ((exec envW stateW (Op.repay "alice" "uumee" 50 0)).market "uumee") = 0) := by
  have hover : owed ((accrueDenom paramsW 0 stateW "uumee").pos "alice" "uumee")
      ((accrueDenom paramsW 0 stateW "uumee").market "uumee") < 50 := by
    simp only [accrueDenom, accrueMarket_zero]
    norm_num [setMarket, stateW, owed, marketW, posW]
  exact ⟨by norm_num, hover,
    repay_overpayment_clamped envW stateW "alice" "uumee" 50 0 paramsW rfl
      (by norm_num) hover⟩


end Leverage
